import Mathlib

/-!
Verification model of the scrapy-redis crawl frontier core.

Shallow embedding, translated from the Python sources:
  src/scrapy_redis/utils.py        (key resolution, template expansion)
  src/scrapy_redis/defaults.py     (key templates and configuration defaults)
  src/scrapy_redis/scheduler.py    (Scheduler orchestration)
  src/scrapy_redis/retry_middleware.py (SimpleRedisRetryMiddleware)
  src/scrapy_redis/stats.py        (RedisStatsCollector)
  src/scrapy_redis/serializers.py  (serializer registry and codecs)

Python strings are Lean String, bytes are List Nat, dicts backing small
registries are explicit lookup functions, and Python exceptions are an
explicit error type threaded through Except.
-/

set_option maxHeartbeats 1000000

deriving instance DecidableEq for Except

namespace ScrapyRedis

/-- Python exception kinds that the modelled code can raise. -/
inductive PyErr where
  | keyError
  | valueError
  | typeError
deriving DecidableEq, Repr

/-- Values stored in the parameter dict handed to the % operator:
the code puts strings (spider name, job id) and one int (timestamp) there. -/
inductive PyVal where
  | str (s : String)
  | int (n : Int)
deriving DecidableEq, Repr

/-- The str() conversion applied by the %s directive. -/
def PyVal.toDisplay : PyVal → String
  | .str s => s
  | .int n => toString n

/-- Python truthiness of an optional string: None and the empty string are
falsy, every other string is truthy. -/
def truthy : Option String → Bool
  | none => false
  | some s => !(s == "")

/-- Parser state of the % formatting scan: scanning literal text, just after
an unescaped %, inside a %(key mapping key, or just after the closing
parenthesis of a mapping key (expecting a conversion character). -/
inductive FmtMode where
  | normal
  | directive
  | key (acc : List Char)
  | conv (key : List Char)

/-- One left-to-right scan of Python template % params over the characters of
the template, modelled from the CPython semantics of the % operator with a
dict right operand as used by utils.expand_key_template.  Modelled directive
subset: %% , %(key)s , %(key)d and a bare %s (which formats the whole dict,
str(params) being the dictStr argument).  Keyed directives and a bare %s
both consume the single positional argument, so a bare %s after either is
the not-enough-arguments TypeError, matching CPython with a dict right
operand.  Flags, widths and the remaining conversion
characters are outside the modelled template language; an unsupported or
missing conversion character is the incomplete-format ValueError, a mapping
key absent from params is KeyError, %d applied to a non-int is TypeError. -/
def fmtRun (dictStr : String) (params : String → Option PyVal) :
    List Char → FmtMode → Bool → Except PyErr String
  | [], mode, _ =>
    match mode with
    | .normal => .ok ""
    | _ => .error .valueError
  | c :: rest, mode, used =>
    match mode with
    | .normal =>
      if c = '%' then fmtRun dictStr params rest .directive used
      else (fmtRun dictStr params rest .normal used).map fun s => String.mk (c :: s.data)
    | .directive =>
      if c = '%' then
        (fmtRun dictStr params rest .normal used).map fun s => String.mk ('%' :: s.data)
      else if c = '(' then fmtRun dictStr params rest (.key []) used
      else if c = 's' then
        if used then .error .typeError
        else (fmtRun dictStr params rest .normal true).map fun s => dictStr ++ s
      else if c = 'd' then .error .typeError
      else .error .valueError
    | .key acc =>
      if c = ')' then fmtRun dictStr params rest (.conv acc) used
      else fmtRun dictStr params rest (.key (acc ++ [c])) used
    | .conv key =>
      if c = 's' then
        match params (String.mk key) with
        | none => .error .keyError
        | some v => (fmtRun dictStr params rest .normal true).map fun s => v.toDisplay ++ s
      else if c = 'd' then
        match params (String.mk key) with
        | none => .error .keyError
        | some (.int n) =>
          (fmtRun dictStr params rest .normal true).map fun s => toString n ++ s
        | some (.str _) => .error .typeError
      else .error .valueError

/-- template % params for the modelled directive subset. -/
def pyFormat (dictStr : String) (params : String → Option PyVal) (template : String) :
    Except PyErr String :=
  fmtRun dictStr params template.data .normal false

/-- The parameter dict built by utils.expand_key_template: spider and name
map to the spider name and job_id to the job id when those are truthy, and
timestamp is always present. -/
def expandParams (spider_name job_id : Option String) (timestamp : Int) :
    String → Option PyVal := fun k =>
  if k = "spider" then if truthy spider_name then spider_name.map PyVal.str else none
  else if k = "name" then if truthy spider_name then spider_name.map PyVal.str else none
  else if k = "job_id" then if truthy job_id then job_id.map PyVal.str else none
  else if k = "timestamp" then some (PyVal.int timestamp)
  else none

/-- str(params): the Python repr of the parameter dict, consumed only by a
bare %s directive in a template. -/
def expandParamsRepr (spider_name job_id : Option String) (timestamp : Int) : String :=
  let q : String := "\x27"
  let sn :=
    if truthy spider_name then
      match spider_name with
      | some s =>
        [q ++ "spider" ++ q ++ ": " ++ q ++ s ++ q,
         q ++ "name" ++ q ++ ": " ++ q ++ s ++ q]
      | none => []
    else []
  let jn :=
    if truthy job_id then
      match job_id with
      | some s => [q ++ "job_id" ++ q ++ ": " ++ q ++ s ++ q]
      | none => []
    else []
  "\x7b" ++ String.intercalate ", " (sn ++ jn ++ [q ++ "timestamp" ++ q ++ ": " ++ toString timestamp]) ++ "\x7d"

/-- utils.expand_key_template: formats the template with the parameter dict;
only KeyError is caught (returning the template itself as a literal
fallback), every other exception propagates to the caller.  The time.time()
call is passed in as the timestamp argument. -/
def expand_key_template (template : String) (spider_name : Option String := none)
    (job_id : Option String := none) (timestamp : Int := 0) : Except PyErr String :=
  match pyFormat (expandParamsRepr spider_name job_id timestamp)
      (expandParams spider_name job_id timestamp) template with
  | .error .keyError => .ok template
  | .error e => .error e
  | .ok s => .ok s

/-- The slice of the Scrapy settings object read by the modelled code. -/
structure Settings where
  /-- settings.getbool of USE_JOB_SCOPED_KEYS (default False). -/
  use_job_scoped_keys : Bool
  /-- settings.get of JOB_ID. -/
  job_id : Option String
  /-- os.environ.get of SCRAPY_JOB. -/
  scrapy_job_env : Option String
deriving DecidableEq, Repr

/-- utils.get_job_id_from_settings: the JOB_ID setting, falling back to the
SCRAPY_JOB environment variable when the setting is falsy. -/
def get_job_id_from_settings (settings : Settings) : Option String :=
  let job_id := settings.job_id
  if truthy job_id then job_id else settings.scrapy_job_env

/-- utils.get_effective_key: the job-scoped template is expanded when
USE_JOB_SCOPED_KEYS is enabled and a job id is present, the legacy template
otherwise; both expansions receive the spider name and the job id. -/
def get_effective_key (settings : Settings) (legacy_key job_scoped_key : String)
    (spider_name : Option String := none) (timestamp : Int := 0) : Except PyErr String :=
  let use_job_scoped := settings.use_job_scoped_keys
  let job_id := get_job_id_from_settings settings
  if use_job_scoped && truthy job_id then
    expand_key_template job_scoped_key spider_name job_id timestamp
  else
    expand_key_template legacy_key spider_name job_id timestamp

/-- The key resolution rule as the specification words it: job-scoped
template expanded with job id and name when job-scoped mode is on and a job
id is present, otherwise the legacy template expanded with the spider name
(and nothing else).  Stated for comparison with get_effective_key. -/
def get_effective_key_spec (settings : Settings) (legacy_key job_scoped_key : String)
    (spider_name : Option String := none) (timestamp : Int := 0) : Except PyErr String :=
  let job_id := get_job_id_from_settings settings
  if settings.use_job_scoped_keys && truthy job_id then
    expand_key_template job_scoped_key spider_name job_id timestamp
  else
    expand_key_template legacy_key spider_name none timestamp

/-- defaults.SCHEDULER_QUEUE_KEY. -/
def SCHEDULER_QUEUE_KEY : String := "%(spider)s:requests"

/-- defaults.SCHEDULER_DUPEFILTER_KEY. -/
def SCHEDULER_DUPEFILTER_KEY : String := "%(spider)s:dupefilter"

/-- defaults.STATS_KEY. -/
def STATS_KEY : String := "%(spider)s:stats"

/-- defaults.PIPELINE_KEY. -/
def PIPELINE_KEY : String := "%(spider)s:items"

/-- defaults.JOB_SCOPED_SCHEDULER_QUEUE_KEY. -/
def JOB_SCOPED_SCHEDULER_QUEUE_KEY : String := "%(job_id)s:%(spider)s:requests"

/-- defaults.JOB_SCOPED_SCHEDULER_DUPEFILTER_KEY. -/
def JOB_SCOPED_SCHEDULER_DUPEFILTER_KEY : String := "%(job_id)s:%(spider)s:dupefilter"

/-- defaults.JOB_SCOPED_STATS_KEY. -/
def JOB_SCOPED_STATS_KEY : String := "%(job_id)s:%(spider)s:stats"

/-- defaults.JOB_SCOPED_PIPELINE_KEY. -/
def JOB_SCOPED_PIPELINE_KEY : String := "%(job_id)s:%(spider)s:items"

/-- defaults.RETRY_SIMPLE_MAX. -/
def RETRY_SIMPLE_MAX : Nat := 3

/-- defaults.RETRY_PRIORITY_ADJUST. -/
def RETRY_PRIORITY_ADJUST : Int := -10

/-- A Scrapy request as seen by the scheduler and the retry middleware: its
dedup fingerprint, the dont_filter opt-out flag, the priority, the request
payload (url, body, headers — opaque here), and the retry_count entry of
request.meta (meta.get of retry_count defaults to 0). -/
structure RRequest where
  fingerprint : String
  dont_filter : Bool
  priority : Int
  payload : String
  retry_count : Nat
deriving DecidableEq, Repr

/-- Redis-backed state the Scheduler manipulates: the dedup fingerprint set,
the frontier queue contents (in push order), the scheduler/enqueued/redis
counter, and whether a stats collector is attached (scheduler.py sets
self.stats only from from_crawler). -/
structure SchedState where
  df : List String
  queue : List RRequest
  enqueued_count : Nat
  has_stats : Bool
deriving DecidableEq, Repr

/-- Modelled from the spec: the Dedup Filter contract of section 4.3 for
RedisDupeFilter.request_seen, whose source (dupefilter.py) is not under
src/.  seen(fingerprint) atomically tests and inserts: it returns true if
the fingerprint was already present and false after newly inserting it. -/
def request_seen (df : List String) (fp : String) : Bool × List String :=
  (df.contains fp, if df.contains fp then df else fp :: df)

/-- Scheduler.enqueue_request: a request that does not opt out of dedup and
whose fingerprint is already seen is rejected (returns False, nothing
pushed); otherwise the enqueued counter is incremented when a stats
collector is attached, the request is pushed and True is returned. -/
def enqueue_request (st : SchedState) (r : RRequest) : Bool × SchedState :=
  if !r.dont_filter then
    let seen := request_seen st.df r.fingerprint
    let st1 : SchedState := { st with df := seen.2 }
    if seen.1 then (false, st1)
    else
      let st2 := if st1.has_stats then { st1 with enqueued_count := st1.enqueued_count + 1 } else st1
      (true, { st2 with queue := st2.queue ++ [r] })
  else
    let st2 := if st.has_stats then { st with enqueued_count := st.enqueued_count + 1 } else st
    (true, { st2 with queue := st2.queue ++ [r] })

/-- Scheduler.flush: clears the dupefilter and the queue.  The clear calls of
the queue and dupefilter classes (not under src/) are modelled from the
spec: clear() empties the backing structure (sections 4.3 and 4.4). -/
def flush (st : SchedState) : SchedState :=
  { st with df := [], queue := [] }

/-- Scheduler.close: flushes unless persistence is requested. -/
def Scheduler.close (persist : Bool) (st : SchedState) : SchedState :=
  if !persist then flush st else st

/-- The configuration slice read by SimpleRedisRetryMiddleware.__init__:
the RETRY_SIMPLE_MAX retry bound and the RETRY_PRIORITY_ADJUST value. -/
structure RetrySettings where
  max_retry_times : Nat
  priority_adjust : Int
deriving DecidableEq, Repr

/-- The decision core of SimpleRedisRetryMiddleware._retry on a
retry-eligible failure: when the retry_count recorded in the request meta
has reached max_retry_times the request is abandoned (None — no retry
request is built and enqueue_request is not called); otherwise the retry
request is built from the failed request with retry_count incremented and
priority set to the failed request priority plus
priority_adjust * 2 ^ (retry_count - 1), and that request is what _retry
hands to scheduler.enqueue_request. -/
def retryRequest (s : RetrySettings) (req : RRequest) : Option RRequest :=
  if s.max_retry_times ≤ req.retry_count then none
  else
    let rc := req.retry_count + 1
    let backoff : Int := 2 ^ (rc - 1)
    some { req with
      retry_count := rc,
      priority := req.priority + s.priority_adjust * backoff }

/-- The request state after k successive retry-eligible failures of the same
logical task: each failure feeds the previous retry request back through
_retry (the re-enqueued request is the one that fails next); none means the
task was abandoned at or before the k-th failure. -/
def failTimes (s : RetrySettings) (req : RRequest) : Nat → Option RRequest
  | 0 => some req
  | k + 1 => (failTimes s req k).bind fun r => retryRequest s r

/-- RedisStatsCollector state: the Redis stats hash for this run's namespace,
the process-local spider reference, and the SCHEDULER_PERSIST setting read
at construction. -/
structure StatsState where
  counters : List (String × Int)
  spider : Option String
  persist : Bool
deriving DecidableEq, Repr

/-- RedisStatsCollector.clear_stats: deletes the stats hash. -/
def clear_stats (st : StatsState) : StatsState :=
  { st with counters := [] }

/-- RedisStatsCollector.close_spider: drops the spider reference and clears
the stats hash unless persistence is requested. -/
def close_spider (st : StatsState) : StatsState :=
  let st1 : StatsState := { st with spider := none }
  if !st1.persist then clear_stats st1 else st1

/-- A serializer implementation object: the registry entries of
serializers.py plus dynamically imported module.Class serializers. -/
inductive SerializerImpl where
  | json
  | msgpack
  | pickle
  | custom (path : String)
deriving DecidableEq, Repr

/-- The SERIALIZERS registry of serializers.py: json, msgpack, pickle, and
picklecompat as a backward-compatibility alias of pickle. -/
def SERIALIZERS : String → Option SerializerImpl := fun name =>
  if name = "json" then some .json
  else if name = "msgpack" then some .msgpack
  else if name = "pickle" then some .pickle
  else if name = "picklecompat" then some .pickle
  else none

/-- The argument given to get_serializer: either a configuration string or an
already-constructed object, which qualifies as a serializer when it has both
loads and dumps attributes. -/
inductive SerializerArg where
  | str (name : String)
  | obj (has_loads has_dumps : Bool) (impl : SerializerImpl)
deriving DecidableEq, Repr

/-- serializers.get_serializer: registry names resolve to the registered
serializer; an unregistered string is treated as a module.Class path —
rsplit on the dot fails with ValueError when there is no dot, and an
importer environment (importEnv, modelling importlib plus getattr) decides
importability otherwise; every failure of that fallback is reported as the
unknown-serializer ValueError.  A non-string argument is accepted when it
has loads and dumps attributes and rejected with TypeError otherwise. -/
def get_serializer (importEnv : String → Option SerializerImpl) :
    SerializerArg → Except PyErr SerializerImpl
  | .str name =>
    match SERIALIZERS name with
    | some impl => .ok impl
    | none =>
      if name.data.contains '.' then
        match importEnv name with
        | some impl => .ok impl
        | none => .error .valueError
      else .error .valueError
  | .obj has_loads has_dumps impl =>
    if has_loads && has_dumps then .ok impl else .error .typeError

/-- The attribute state Scheduler.__init__ leaves behind on success; field
names and contents follow the assignments of scheduler.py lines 78-89.
Opaque constructor arguments (server, dupefilter, serializer) are carried
as-is. -/
structure SchedulerObj where
  server : String
  persist : Bool
  flush_on_start : Bool
  queue_key : String
  queue_cls : String
  df : Option String
  dupefilter_cls : String
  dupefilter_key : String
  idle_before_close : Int
  serializer : Option String
  job_id : Option String
  stats : Option String
deriving DecidableEq, Repr

/-- Scheduler.__init__: a negative idle_before_close raises TypeError before
any attribute is assigned; otherwise every parameter is stored as given,
job_id falls back to the SCRAPY_JOB environment variable when the argument
is falsy, and stats starts as None. -/
def Scheduler.init (env_scrapy_job : Option String) (server : String)
    (persist flush_on_start : Bool) (queue_key queue_cls : String)
    (dupefilter : Option String) (dupefilter_key dupefilter_cls : String)
    (idle_before_close : Int) (serializer : Option String)
    (job_id : Option String) : Except PyErr SchedulerObj :=
  if idle_before_close < 0 then .error .typeError
  else .ok {
    server := server
    persist := persist
    flush_on_start := flush_on_start
    queue_key := queue_key
    queue_cls := queue_cls
    df := dupefilter
    dupefilter_cls := dupefilter_cls
    dupefilter_key := dupefilter_key
    idle_before_close := idle_before_close
    serializer := serializer
    job_id := if truthy job_id then job_id else env_scrapy_job
    stats := none }

/-! ### Serialized task payloads

serializers.py delegates to the json and msgpack libraries.  The payload
space handed to them by the queue layer (request dicts) is modelled by
JVal: null, booleans, integers, strings, arrays and objects (an object is
an insertion-ordered dict, modelled as its ordered key/value pairs).
Floating-point numbers are outside the modelled payload space. -/
inductive JVal where
  | null
  | bool (b : Bool)
  | int (n : Int)
  | str (s : List Char)
  | arr (xs : List JVal)
  | obj (kvs : List (List Char × JVal))

/-- The opening brace character, kept out of string literals. -/
def lbrace : Char := Char.ofNat 123

/-- The closing brace character, kept out of string literals. -/
def rbrace : Char := Char.ofNat 125

/-- The decimal digit character for d < 10 (9 for larger arguments). -/
def digitChar : Nat → Char
  | 0 => '0'
  | 1 => '1'
  | 2 => '2'
  | 3 => '3'
  | 4 => '4'
  | 5 => '5'
  | 6 => '6'
  | 7 => '7'
  | 8 => '8'
  | _ => '9'

/-- Decimal digits of n, most significant first, prepended to acc; the fuel
only needs to cover the number of digits. -/
def natCharsAux : Nat → Nat → List Char → List Char
  | 0, _, acc => acc
  | fuel + 1, n, acc =>
    let acc1 := digitChar (n % 10) :: acc
    if n < 10 then acc1 else natCharsAux fuel (n / 10) acc1

/-- The decimal representation of a natural number, as Python str(). -/
def natChars (n : Nat) : List Char := natCharsAux (n + 1) n []

/-- The decimal representation of an integer, as Python str()/repr() and
hence as json.dumps renders int payloads. -/
def intChars (n : Int) : List Char :=
  if n < 0 then '-' :: natChars n.natAbs else natChars n.toNat

/-- json.dumps string escaping with ensure_ascii=False on strings free of
control characters: the quote and the backslash are escaped, every other
character is emitted raw. -/
def escChar (c : Char) : List Char :=
  if c = '"' then ['\\', '"']
  else if c = '\\' then ['\\', '\\']
  else [c]

/-- Escape a whole string body for a JSON string literal. -/
def escapeStr (s : List Char) : List Char := s.flatMap escChar

mutual

/-- json.dumps with ensure_ascii=False and the default separators
(comma-space between items, colon-space after keys), as called by
JsonSerializer.dumps before utf-8 encoding. -/
def jdumps : JVal → List Char
  | .null => ['n', 'u', 'l', 'l']
  | .bool b => if b then ['t', 'r', 'u', 'e'] else ['f', 'a', 'l', 's', 'e']
  | .int n => intChars n
  | .str s => '"' :: escapeStr s ++ ['"']
  | .arr xs => '[' :: jdumpsElems xs ++ [']']
  | .obj kvs => lbrace :: jdumpsMembers kvs ++ [rbrace]

/-- Array items joined by comma-space. -/
def jdumpsElems : List JVal → List Char
  | [] => []
  | x :: xs => jdumps x ++ (if xs.isEmpty then [] else [',', ' ']) ++ jdumpsElems xs

/-- Object members rendered as quoted key, colon-space, value, joined by
comma-space. -/
def jdumpsMembers : List (List Char × JVal) → List Char
  | [] => []
  | (k, v) :: xs =>
    '"' :: escapeStr k ++ '"' :: ':' :: ' ' :: jdumps v
      ++ (if xs.isEmpty then [] else [',', ' ']) ++ jdumpsMembers xs

end

/-- Characters allowed in well-formed payload strings: everything except the
control range that json.dumps would render as backslash-u escapes. -/
def wfChar (c : Char) : Bool := decide (32 ≤ c.toNat)

/-- A well-formed payload string: no control characters. -/
def wfStr (s : List Char) : Bool := s.all wfChar

mutual

/-- Well-formed task payloads: strings free of control characters, integers
within the signed/unsigned 64-bit range accepted by msgpack, strings below
2^30 characters (so their utf-8 rendering fits every str header), element
and member counts below 2^32, and object keys pairwise distinct (objects
model Python dicts). -/
def wfJ : JVal → Bool
  | .null => true
  | .bool _ => true
  | .int n => decide (-(2 ^ 63 : Int) ≤ n && n < 2 ^ 64)
  | .str s => wfStr s && decide (s.length < 2 ^ 30)
  | .arr xs => decide (xs.length < 2 ^ 32) && wfArr xs
  | .obj kvs =>
    decide ((kvs.map Prod.fst).Nodup) && decide (kvs.length < 2 ^ 32) && wfObjL kvs

/-- All array elements well-formed. -/
def wfArr : List JVal → Bool
  | [] => true
  | x :: xs => wfJ x && wfArr xs

/-- All object keys well-formed strings and all values well-formed. -/
def wfObjL : List (List Char × JVal) → Bool
  | [] => true
  | (k, v) :: xs => (wfStr k && decide (k.length < 2 ^ 30)) && wfJ v && wfObjL xs

end

/-- JSON insignificant whitespace. -/
def isWs (c : Char) : Bool := c = ' ' || c = '\t' || c = '\n' || c = '\r'

/-- Skip insignificant whitespace. -/
def skipWs (l : List Char) : List Char := l.dropWhile isWs

/-- Decimal digit test, on code points. -/
def isDig (c : Char) : Bool := 48 ≤ c.toNat && c.toNat ≤ 57

/-- Numeric value of a decimal digit character. -/
def charVal (c : Char) : Nat := c.toNat - 48

/-- Parse a run of decimal digits into its value. -/
def parseNat (l : List Char) : Option (Nat × List Char) :=
  let ds := l.takeWhile isDig
  if ds.isEmpty then none
  else some (ds.foldl (fun acc c => acc * 10 + charVal c) 0, l.dropWhile isDig)

/-- Parse an optionally negated decimal integer literal. -/
def parseIntTok (l : List Char) : Option (Int × List Char) :=
  match l with
  | [] => none
  | c :: rest =>
    if c = '-' then (parseNat rest).map fun p => (-(p.1 : Int), p.2)
    else (parseNat (c :: rest)).map fun p => ((p.1 : Int), p.2)

/-- Match an exact literal continuation (the tails of null, true, false). -/
def matchTok : List Char → List Char → Option (List Char)
  | [], l => some l
  | _ :: _, [] => none
  | t :: ts, c :: cs => if c = t then matchTok ts cs else none

/-- Body of a JSON string literal after the opening quote, undoing the
escaping of escChar; escapes other than backslash-quote and
backslash-backslash never occur in jdumps output and are not modelled. -/
def parseStrBody : List Char → Option (List Char × List Char)
  | [] => none
  | c :: rest =>
    if c = '"' then some ([], rest)
    else if c = '\\' then
      match rest with
      | [] => none
      | e :: rest2 =>
        if e = '"' then (parseStrBody rest2).map fun p => ('"' :: p.1, p.2)
        else if e = '\\' then (parseStrBody rest2).map fun p => ('\\' :: p.1, p.2)
        else none
    else (parseStrBody rest).map fun p => (c :: p.1, p.2)

/-- What the JSON parser is currently reading: a single value, the items of
a non-empty array (consuming the closing bracket), or the members of a
non-empty object (consuming the closing brace). -/
inductive PMode where
  | one
  | elems
  | members

/-- Result of one JSON parse step, per PMode. -/
inductive PRes where
  | v (x : JVal)
  | vs (xs : List JVal)
  | ms (kvs : List (List Char × JVal))

/-- Recursive-descent JSON parser (the json.loads grammar on the fragment
json.dumps emits: null, booleans, integers, strings with the two modelled
escapes, arrays, objects, insignificant whitespace).  The fuel dominates
the recursion depth; loads supplies enough for any input of its length. -/
def parseJ : Nat → PMode → List Char → Option (PRes × List Char)
  | 0, _, _ => none
  | fuel + 1, .one, l =>
    match skipWs l with
    | [] => none
    | c :: rest =>
      if c = 'n' then (matchTok ['u', 'l', 'l'] rest).map fun r => (.v .null, r)
      else if c = 't' then (matchTok ['r', 'u', 'e'] rest).map fun r => (.v (.bool true), r)
      else if c = 'f' then (matchTok ['a', 'l', 's', 'e'] rest).map fun r => (.v (.bool false), r)
      else if c = '"' then (parseStrBody rest).map fun p => (.v (.str p.1), p.2)
      else if c = '[' then
        match skipWs rest with
        | [] => none
        | c2 :: rest2 =>
          if c2 = ']' then some (.v (.arr []), rest2)
          else
            match parseJ fuel .elems (c2 :: rest2) with
            | some (.vs xs, r) => some (.v (.arr xs), r)
            | _ => none
      else if c = lbrace then
        match skipWs rest with
        | [] => none
        | c2 :: rest2 =>
          if c2 = rbrace then some (.v (.obj []), rest2)
          else
            match parseJ fuel .members (c2 :: rest2) with
            | some (.ms kvs, r) => some (.v (.obj kvs), r)
            | _ => none
      else (parseIntTok (c :: rest)).map fun p => (.v (.int p.1), p.2)
  | fuel + 1, .elems, l =>
    match parseJ fuel .one l with
    | some (.v x, r) =>
      (match skipWs r with
       | [] => none
       | c :: rest =>
         if c = ',' then
           match parseJ fuel .elems (skipWs rest) with
           | some (.vs xs, r2) => some (.vs (x :: xs), r2)
           | _ => none
         else if c = ']' then some (.vs [x], rest)
         else none)
    | _ => none
  | fuel + 1, .members, l =>
    match skipWs l with
    | [] => none
    | c :: rest =>
      if c = '"' then
        match parseStrBody rest with
        | none => none
        | some (k, r1) =>
          match skipWs r1 with
          | [] => none
          | c2 :: r2 =>
            if c2 = ':' then
              match parseJ fuel .one r2 with
              | some (.v x, r3) =>
                (match skipWs r3 with
                 | [] => none
                 | c3 :: r4 =>
                   if c3 = ',' then
                     match parseJ fuel .members r4 with
                     | some (.ms kvs, r5) => some (.ms ((k, x) :: kvs), r5)
                     | _ => none
                   else if c3 = rbrace then some (.ms [(k, x)], r4)
                   else none)
              | _ => none
            else none
      else none

/-- json.loads on a complete document: parse one value, then require only
whitespace to remain. -/
def jloads (l : List Char) : Option JVal :=
  match parseJ (4 * l.length + 4) .one l with
  | some (.v x, r) => if (skipWs r).isEmpty then some x else none
  | _ => none

/-- UTF-8 encoding of one scalar value. -/
def utf8Char (c : Char) : List Nat :=
  let n := c.toNat
  if n < 128 then [n]
  else if n < 2048 then [192 + n / 64, 128 + n % 64]
  else if n < 65536 then [224 + n / 4096, 128 + n / 64 % 64, 128 + n % 64]
  else [240 + n / 262144, 128 + n / 4096 % 64, 128 + n / 64 % 64, 128 + n % 64]

/-- UTF-8 encoding of a string, as str.encode. -/
def utf8Str (s : List Char) : List Nat := s.flatMap utf8Char

/-- Read the continuation byte of a 2-byte UTF-8 sequence. -/
def utf8Take2 (b : Nat) : List Nat → Option (Nat × List Nat)
  | b2 :: rest2 =>
    if 128 ≤ b2 && b2 < 192 then
      let n := (b - 192) * 64 + (b2 - 128)
      if 128 ≤ n then some (n, rest2) else none
    else none
  | [] => none

/-- Read the continuation bytes of a 3-byte UTF-8 sequence, rejecting
overlong encodings and surrogates. -/
def utf8Take3 (b : Nat) : List Nat → Option (Nat × List Nat)
  | b2 :: b3 :: rest2 =>
    if (128 ≤ b2 && b2 < 192) && (128 ≤ b3 && b3 < 192) then
      let n := (b - 224) * 4096 + (b2 - 128) * 64 + (b3 - 128)
      if 2048 ≤ n && !(55296 ≤ n && n < 57344) then some (n, rest2) else none
    else none
  | _ => none

/-- Read the continuation bytes of a 4-byte UTF-8 sequence. -/
def utf8Take4 (b : Nat) : List Nat → Option (Nat × List Nat)
  | b2 :: b3 :: b4 :: rest2 =>
    if ((128 ≤ b2 && b2 < 192) && (128 ≤ b3 && b3 < 192)) && (128 ≤ b4 && b4 < 192) then
      let n := (b - 240) * 262144 + (b2 - 128) * 4096 + (b3 - 128) * 64 + (b4 - 128)
      if 65536 ≤ n && n < 1114112 then some (n, rest2) else none
    else none
  | _ => none

/-- UTF-8 decoding worker; every scalar consumes at least one byte, so fuel
beyond the byte count never runs out. -/
def utf8DecodeF : Nat → List Nat → Option (List Char)
  | 0, _ => none
  | _ + 1, [] => some []
  | fuel + 1, b :: rest =>
    if b < 128 then (utf8DecodeF fuel rest).map fun cs => Char.ofNat b :: cs
    else if b < 192 then none
    else
      match (if b < 224 then utf8Take2 b rest
             else if b < 240 then utf8Take3 b rest
             else if b < 248 then utf8Take4 b rest
             else none) with
      | some (n, rest2) => (utf8DecodeF fuel rest2).map fun cs => Char.ofNat n :: cs
      | none => none

/-- UTF-8 decoding, as bytes.decode: rejects malformed sequences. -/
def utf8Decode (l : List Nat) : Option (List Char) := utf8DecodeF (l.length + 1) l

/-- JsonSerializer.dumps: json.dumps with ensure_ascii=False, utf-8 encoded
to bytes. -/
def JsonSerializer.dumps (v : JVal) : List Nat := utf8Str (jdumps v)

/-- JsonSerializer.loads: decode utf-8 when given bytes, then json.loads;
a failure of either step is the DecodeError outcome. -/
def JsonSerializer.loads (b : List Nat) : Option JVal :=
  (utf8Decode b).bind jloads

/-- Big-endian 2-byte encoding (arguments below 2^16). -/
def be2 (n : Nat) : List Nat := [n / 256, n % 256]

/-- Big-endian 4-byte encoding (arguments below 2^32). -/
def be4 (n : Nat) : List Nat :=
  [n / 16777216, n / 65536 % 256, n / 256 % 256, n % 256]

/-- Big-endian 8-byte encoding (arguments below 2^64). -/
def be8 (n : Nat) : List Nat :=
  [n / 72057594037927936, n / 281474976710656 % 256, n / 1099511627776 % 256,
   n / 4294967296 % 256, n / 16777216 % 256, n / 65536 % 256, n / 256 % 256, n % 256]

/-- msgpack integer encoding, smallest form first as msgpack.packb emits:
positive fixint, negative fixint, uint8/16/32/64, int8/16/32/64 (negatives
stored as two's complement offsets). -/
def mpInt (n : Int) : List Nat :=
  if 0 ≤ n then
    let m := n.toNat
    if m < 128 then [m]
    else if m < 256 then [204, m]
    else if m < 65536 then 205 :: be2 m
    else if m < 4294967296 then 206 :: be4 m
    else 207 :: be8 m
  else
    if -32 ≤ n then [(256 + n).toNat]
    else if -128 ≤ n then [208, (256 + n).toNat]
    else if -32768 ≤ n then 209 :: be2 (65536 + n).toNat
    else if -2147483648 ≤ n then 210 :: be4 (4294967296 + n).toNat
    else 211 :: be8 (18446744073709551616 + n).toNat

/-- msgpack string header for a body of len utf-8 bytes: fixstr, str8,
str16 or str32, smallest applicable form. -/
def mpStrHdr (len : Nat) : List Nat :=
  if len < 32 then [160 + len]
  else if len < 256 then [217, len]
  else if len < 65536 then 218 :: be2 len
  else 219 :: be4 len

/-- msgpack string encoding: header then utf-8 body. -/
def mpStr (s : List Char) : List Nat :=
  let bs := utf8Str s
  mpStrHdr bs.length ++ bs

/-- msgpack array header: fixarray, array16 or array32. -/
def mpArrHdr (len : Nat) : List Nat :=
  if len < 16 then [144 + len]
  else if len < 65536 then 220 :: be2 len
  else 221 :: be4 len

/-- msgpack map header: fixmap, map16 or map32. -/
def mpMapHdr (len : Nat) : List Nat :=
  if len < 16 then [128 + len]
  else if len < 65536 then 222 :: be2 len
  else 223 :: be4 len

mutual

/-- msgpack.packb on the modelled payload space: nil, booleans, integers,
utf-8 strings (str family — packb with default use_bin_type), arrays and
string-keyed maps, always in the smallest encoding. -/
def mpack : JVal → List Nat
  | .null => [192]
  | .bool false => [194]
  | .bool true => [195]
  | .int n => mpInt n
  | .str s => mpStr s
  | .arr xs => mpArrHdr xs.length ++ mpackElems xs
  | .obj kvs => mpMapHdr kvs.length ++ mpackMembers kvs

/-- Concatenated element encodings. -/
def mpackElems : List JVal → List Nat
  | [] => []
  | x :: xs => mpack x ++ mpackElems xs

/-- Concatenated key/value pair encodings. -/
def mpackMembers : List (List Char × JVal) → List Nat
  | [] => []
  | (k, v) :: xs => mpStr k ++ mpack v ++ mpackMembers xs

end

/-- Read exactly n bytes. -/
def readN : Nat → List Nat → Option (List Nat × List Nat)
  | 0, l => some ([], l)
  | _ + 1, [] => none
  | n + 1, b :: rest => (readN n rest).map fun p => (b :: p.1, p.2)

/-- Read an n-byte utf-8 string body (unpackb with raw=False decodes the
str family to str, rejecting malformed utf-8). -/
def readStr (len : Nat) (l : List Nat) : Option (List Char × List Nat) :=
  match readN len l with
  | some (bs, r) => (utf8Decode bs).map fun cs => (cs, r)
  | none => none

/-- What the msgpack decoder is currently reading: one object, or a counted
run of array elements or map pairs. -/
inductive MMode where
  | one
  | elems (n : Nat)
  | members (n : Nat)

/-- Result of one msgpack decode step, per MMode. -/
inductive MRes where
  | v (x : JVal)
  | vs (xs : List JVal)
  | ms (kvs : List (List Char × JVal))

/-- msgpack.unpackb decoding of the formats mpack emits (map keys are
required to be strings, as in the str-keyed dicts the queue serializes;
bin, ext and float families are outside the modelled payload space).  The
fuel dominates recursion depth; loads supplies enough for any input. -/
def munpack : Nat → MMode → List Nat → Option (MRes × List Nat)
  | 0, _, _ => none
  | fuel + 1, .one, l =>
    match l with
    | [] => none
    | b :: rest =>
      if b < 128 then some (.v (.int b), rest)
      else if b < 144 then
        match munpack fuel (.members (b - 128)) rest with
        | some (.ms kvs, r) => some (.v (.obj kvs), r)
        | _ => none
      else if b < 160 then
        match munpack fuel (.elems (b - 144)) rest with
        | some (.vs xs, r) => some (.v (.arr xs), r)
        | _ => none
      else if b < 192 then (readStr (b - 160) rest).map fun p => (.v (.str p.1), p.2)
      else if b = 192 then some (.v .null, rest)
      else if b = 194 then some (.v (.bool false), rest)
      else if b = 195 then some (.v (.bool true), rest)
      else if b = 204 then
        match rest with
        | a :: r => some (.v (.int a), r)
        | _ => none
      else if b = 205 then
        match rest with
        | a :: a2 :: r => some (.v (.int (a * 256 + a2)), r)
        | _ => none
      else if b = 206 then
        match rest with
        | a :: a2 :: a3 :: a4 :: r =>
          some (.v (.int (a * 16777216 + a2 * 65536 + a3 * 256 + a4)), r)
        | _ => none
      else if b = 207 then
        match rest with
        | a :: a2 :: a3 :: a4 :: a5 :: a6 :: a7 :: a8 :: r =>
          some (.v (.int (a * 72057594037927936 + a2 * 281474976710656
            + a3 * 1099511627776 + a4 * 4294967296 + a5 * 16777216
            + a6 * 65536 + a7 * 256 + a8)), r)
        | _ => none
      else if b = 208 then
        match rest with
        | a :: r => some (.v (.int (if a < 128 then (a : Int) else (a : Int) - 256)), r)
        | _ => none
      else if b = 209 then
        match rest with
        | a :: a2 :: r =>
          let m := a * 256 + a2
          some (.v (.int (if m < 32768 then (m : Int) else (m : Int) - 65536)), r)
        | _ => none
      else if b = 210 then
        match rest with
        | a :: a2 :: a3 :: a4 :: r =>
          let m := a * 16777216 + a2 * 65536 + a3 * 256 + a4
          some (.v (.int (if m < 2147483648 then (m : Int) else (m : Int) - 4294967296)), r)
        | _ => none
      else if b = 211 then
        match rest with
        | a :: a2 :: a3 :: a4 :: a5 :: a6 :: a7 :: a8 :: r =>
          let m := a * 72057594037927936 + a2 * 281474976710656
            + a3 * 1099511627776 + a4 * 4294967296 + a5 * 16777216
            + a6 * 65536 + a7 * 256 + a8
          some (.v (.int (if m < 9223372036854775808 then (m : Int)
            else (m : Int) - 18446744073709551616)), r)
        | _ => none
      else if b = 217 then
        match rest with
        | len :: r => (readStr len r).map fun p => (.v (.str p.1), p.2)
        | _ => none
      else if b = 218 then
        match rest with
        | a :: a2 :: r => (readStr (a * 256 + a2) r).map fun p => (.v (.str p.1), p.2)
        | _ => none
      else if b = 219 then
        match rest with
        | a :: a2 :: a3 :: a4 :: r =>
          (readStr (a * 16777216 + a2 * 65536 + a3 * 256 + a4) r).map
            fun p => (.v (.str p.1), p.2)
        | _ => none
      else if b = 220 then
        match rest with
        | a :: a2 :: r =>
          match munpack fuel (.elems (a * 256 + a2)) r with
          | some (.vs xs, r2) => some (.v (.arr xs), r2)
          | _ => none
        | _ => none
      else if b = 221 then
        match rest with
        | a :: a2 :: a3 :: a4 :: r =>
          match munpack fuel (.elems (a * 16777216 + a2 * 65536 + a3 * 256 + a4)) r with
          | some (.vs xs, r2) => some (.v (.arr xs), r2)
          | _ => none
        | _ => none
      else if b = 222 then
        match rest with
        | a :: a2 :: r =>
          match munpack fuel (.members (a * 256 + a2)) r with
          | some (.ms kvs, r2) => some (.v (.obj kvs), r2)
          | _ => none
        | _ => none
      else if b = 223 then
        match rest with
        | a :: a2 :: a3 :: a4 :: r =>
          match munpack fuel (.members (a * 16777216 + a2 * 65536 + a3 * 256 + a4)) r with
          | some (.ms kvs, r2) => some (.v (.obj kvs), r2)
          | _ => none
        | _ => none
      else if 224 ≤ b && b ≤ 255 then some (.v (.int ((b : Int) - 256)), rest)
      else none
  | _ + 1, .elems 0, l => some (.vs [], l)
  | fuel + 1, .elems (n + 1), l =>
    match munpack fuel .one l with
    | some (.v x, r) =>
      match munpack fuel (.elems n) r with
      | some (.vs xs, r2) => some (.vs (x :: xs), r2)
      | _ => none
    | _ => none
  | _ + 1, .members 0, l => some (.ms [], l)
  | fuel + 1, .members (n + 1), l =>
    match munpack fuel .one l with
    | some (.v (.str k), r) =>
      match munpack fuel .one r with
      | some (.v x, r2) =>
        match munpack fuel (.members n) r2 with
        | some (.ms kvs, r3) => some (.ms ((k, x) :: kvs), r3)
        | _ => none
      | _ => none
    | _ => none

/-- MsgpackSerializer.dumps: msgpack.packb. -/
def MsgpackSerializer.dumps (v : JVal) : List Nat := mpack v

/-- MsgpackSerializer.loads: msgpack.unpackb with raw=False; trailing bytes
are the ExtraData error, modelled as none. -/
def MsgpackSerializer.loads (b : List Nat) : Option JVal :=
  match munpack (4 * b.length + 4) .one b with
  | some (.v x, r) => if r.isEmpty then some x else none
  | _ => none

/-- Scan state for the well-formedness check of key templates, mirroring
FmtMode: literal text, after %, inside a mapping key, after its close. -/
inductive WfMode where
  | normal
  | afterP
  | inKey
  | afterKey

/-- A template is well-formed when every % directive in it is %% or a
mapping-keyed %(key)s: the directive shapes the repository's own key
templates use.  Templates with a dangling %, a bare conversion or an
unsupported conversion character are not well-formed. -/
def wfRun : List Char → WfMode → Bool
  | [], m =>
    match m with
    | .normal => true
    | _ => false
  | c :: rest, m =>
    match m with
    | .normal => if c = '%' then wfRun rest .afterP else wfRun rest .normal
    | .afterP =>
      if c = '%' then wfRun rest .normal
      else if c = '(' then wfRun rest .inKey
      else false
    | .inKey => if c = ')' then wfRun rest .afterKey else wfRun rest .inKey
    | .afterKey => if c = 's' then wfRun rest .normal else false

/-- Template well-formedness, starting in literal-text mode. -/
def wfTemplate (t : String) : Bool := wfRun t.data .normal

/-- A formatting outcome that never escapes expand_key_template: either the
caught KeyError or a successful expansion. -/
def fmtOk (e : Except PyErr String) : Prop :=
  e = .error .keyError ∨ ∃ s, e = .ok s

/-- Specification form of the decimal digits of a natural number, most
significant first (what natCharsAux computes with sufficient fuel). -/
def decimal (n : Nat) : List Char :=
  if _h : n < 10 then [digitChar n]
  else decimal (n / 10) ++ [digitChar (n % 10)]
decreasing_by exact Nat.div_lt_self (by omega) (by omega)

/-- True when the input does not continue a decimal digit run: empty or
starting with a non-digit.  Boundary condition for parsing an integer
followed by further input. -/
def headNotDig : List Char → Bool
  | [] => true
  | c :: _ => !(isDig c)

mutual

/-- Fuel requirement of parseJ on the jdumps rendering of a value. -/
def jsize : JVal → Nat
  | .null => 1
  | .bool _ => 1
  | .int _ => 1
  | .str _ => 1
  | .arr xs => 1 + jsizeL xs
  | .obj kvs => 1 + jsizeM kvs

/-- Fuel requirement of parseJ in elems mode. -/
def jsizeL : List JVal → Nat
  | [] => 0
  | x :: xs => 1 + jsize x + jsizeL xs

/-- Fuel requirement of parseJ in members mode. -/
def jsizeM : List (List Char × JVal) → Nat
  | [] => 0
  | (_, v) :: xs => 1 + jsize v + jsizeM xs

end

mutual

/-- Fuel requirement of munpack on the mpack encoding of a value. -/
def msize : JVal → Nat
  | .null => 1
  | .bool _ => 1
  | .int _ => 1
  | .str _ => 1
  | .arr xs => 2 + msizeL xs
  | .obj kvs => 2 + msizeM kvs

/-- Fuel requirement of munpack in elems mode. -/
def msizeL : List JVal → Nat
  | [] => 0
  | x :: xs => 1 + msize x + msizeL xs

/-- Fuel requirement of munpack in members mode (key and value parses). -/
def msizeM : List (List Char × JVal) → Nat
  | [] => 0
  | (_, v) :: xs => 2 + msize v + msizeM xs

end

/-! ### Retry accumulation -/

/-- After k successive retry-eligible failures within the retry budget, the
surviving retry request carries retry_count k and the original priority
demoted by priority_adjust times (2^k - 1): each pass of _retry adds
priority_adjust * 2^(retry_count - 1) on top of the previous retry
request's priority, so the per-step geometric terms accumulate. -/
theorem failTimes_formula (s : RetrySettings) (r : RRequest) :
    ∀ k : Nat, r.retry_count = 0 → k ≤ s.max_retry_times →
      failTimes s r k = some ⟨r.fingerprint, r.dont_filter,
        r.priority + s.priority_adjust * (2 ^ k - 1), r.payload, k⟩ := by
  intro k h0 hk
  induction k with
  | zero =>
    cases r
    simp_all [failTimes]
  | succ k ih =>
    have hk' : k ≤ s.max_retry_times := Nat.le_of_succ_le hk
    have hlt : ¬ s.max_retry_times ≤ k := by omega
    have hpow : (2 : Int) ^ (k + 1) = 2 ^ k * 2 := by ring
    rw [failTimes, ih hk']
    simp only [Option.some_bind, retryRequest, Nat.add_sub_cancel, hlt, if_false,
      Option.some.injEq, RRequest.mk.injEq]
    refine ⟨trivial, trivial, by rw [hpow]; ring, trivial, trivial⟩

/-- After the retry budget is exhausted, every further failure leaves the
task abandoned: failTimes is none from max_retry_times + 1 onward. -/
theorem failTimes_abandoned (s : RetrySettings) (r : RRequest)
    (h0 : r.retry_count = 0) :
    ∀ j : Nat, s.max_retry_times < j → failTimes s r j = none := by
  intro j hj
  induction j with
  | zero => omega
  | succ j ih =>
    rcases Nat.lt_or_ge s.max_retry_times j with hlt | hge
    · rw [failTimes, ih hlt]
      rfl
    · have hj' : j = s.max_retry_times := by omega
      subst hj'
      rw [failTimes, failTimes_formula s r _ h0 (le_refl _)]
      simp [retryRequest]

/-! ### Template expansion safety -/

/-- fmtOk is preserved by mapping over a successful result. -/
theorem fmtOk_map (e : Except PyErr String) (f : String → String)
    (h : fmtOk e) : fmtOk (e.map f) := by
  rcases h with h | ⟨s, h⟩ <;> subst h
  · exact Or.inl rfl
  · exact Or.inr ⟨f s, rfl⟩

/-- On a well-formed remainder of the template the formatting scan, in any
mode, can only succeed or stop with the caught KeyError. -/
theorem fmtRun_wf (d : String) (p : String → Option PyVal) :
    ∀ (l : List Char) (used : Bool),
      (wfRun l .normal = true → fmtOk (fmtRun d p l .normal used)) ∧
      (wfRun l .afterP = true → fmtOk (fmtRun d p l .directive used)) ∧
      (∀ acc, wfRun l .inKey = true → fmtOk (fmtRun d p l (.key acc) used)) ∧
      (∀ key, wfRun l .afterKey = true → fmtOk (fmtRun d p l (.conv key) used)) := by
  intro l
  induction l with
  | nil =>
    intro used
    refine ⟨fun _ => Or.inr ⟨"", rfl⟩, fun h => by simp [wfRun] at h,
      fun acc h => by simp [wfRun] at h, fun key h => by simp [wfRun] at h⟩
  | cons c rest ih =>
    intro used
    refine ⟨?_, ?_, ?_, ?_⟩
    · intro h
      simp only [wfRun] at h
      simp only [fmtRun]
      by_cases hc : c = '%'
      · rw [if_pos hc] at h ⊢
        exact (ih used).2.1 h
      · rw [if_neg hc] at h ⊢
        exact fmtOk_map _ _ ((ih used).1 h)
    · intro h
      simp only [wfRun] at h
      simp only [fmtRun]
      by_cases hc : c = '%'
      · rw [if_pos hc] at h ⊢
        exact fmtOk_map _ _ ((ih used).1 h)
      · rw [if_neg hc] at h ⊢
        by_cases hp : c = '('
        · rw [if_pos hp] at h ⊢
          exact (ih used).2.2.1 [] h
        · rw [if_neg hp] at h
          simp at h
    · intro acc h
      simp only [wfRun] at h
      simp only [fmtRun]
      by_cases hc : c = ')'
      · rw [if_pos hc] at h ⊢
        exact (ih used).2.2.2 acc h
      · rw [if_neg hc] at h ⊢
        exact (ih used).2.2.1 (acc ++ [c]) h
    · intro key h
      simp only [wfRun] at h
      simp only [fmtRun]
      by_cases hc : c = 's'
      · rw [if_pos hc] at h ⊢
        cases hp : p (String.mk key) with
        | none =>
          simp only [hp]
          exact Or.inl rfl
        | some v =>
          simp only [hp]
          exact fmtOk_map _ _ ((ih true).1 h)
      · rw [if_neg hc] at h
        simp at h

/-! ### Claim theorems -/

/-- C5 counterexample: expand_key_template is not total over every template
string — a template ending in a bare % raises the incomplete-format
ValueError (only KeyError is caught), which propagates to the caller. -/
theorem C5_expand_counterexample :
    expand_key_template "100%" (some "sp") none 0 = .error .valueError := by
  decide

/-- C5 amended: on templates whose directives are all %% or %(key)s — the
shapes the repository's key templates use — expansion is total: it always
returns some string, and in particular an unfillable placeholder (the
KeyError case) returns the template itself unchanged. -/
theorem C5_expand_total_on_wf (t : String) (spider_name job_id : Option String)
    (timestamp : Int) (hwf : wfTemplate t = true) :
    (∃ s, expand_key_template t spider_name job_id timestamp = .ok s) ∧
    (pyFormat (expandParamsRepr spider_name job_id timestamp)
        (expandParams spider_name job_id timestamp) t = .error .keyError →
      expand_key_template t spider_name job_id timestamp = .ok t) := by
  constructor
  · have h := (fmtRun_wf (expandParamsRepr spider_name job_id timestamp)
      (expandParams spider_name job_id timestamp) t.data false).1 hwf
    rcases h with h | ⟨s, h⟩
    · exact ⟨t, by simp [expand_key_template, pyFormat, h]⟩
    · exact ⟨s, by simp [expand_key_template, pyFormat, h]⟩
  · intro h
    simp [expand_key_template, h]

/-- C5 witness: the job-scoped queue template is well-formed; with no job id
available its expansion still succeeds (falling back to the literal
template). -/
theorem C5_expand_total_on_wf_witness :
    wfTemplate "%(job_id)s:%(spider)s:requests" = true ∧
    (∃ s, expand_key_template "%(job_id)s:%(spider)s:requests"
      (some "sp") none 0 = .ok s) :=
  ⟨by decide,
   (C5_expand_total_on_wf "%(job_id)s:%(spider)s:requests" (some "sp") none 0
     (by decide)).1⟩

/-- C4 counterexample: with job-scoped keys disabled but a JOB_ID present,
the code substitutes the job id into the legacy template too, so a legacy
template mentioning %(job_id)s expands instead of falling back to the
literal template as the claim (legacy expanded with the spider name only)
requires. -/
theorem C4_effective_key_counterexample :
    get_effective_key ⟨false, some "j", none⟩ "%(job_id)s:x" "%(job_id)s:y"
      (some "sp") 0 = .ok "j:x" ∧
    get_effective_key_spec ⟨false, some "j", none⟩ "%(job_id)s:x" "%(job_id)s:y"
      (some "sp") 0 = .ok "%(job_id)s:x" ∧
    ("j:x" : String) ≠ "%(job_id)s:x" := by
  refine ⟨by decide, by decide, by decide⟩

/-- C4 amended: get_effective_key expands the job-scoped template iff
USE_JOB_SCOPED_KEYS is set and a job id is present (JOB_ID setting, else
the SCRAPY_JOB environment variable); otherwise it expands the legacy
template — with the spider name and also the job id, which is substituted
into the legacy template as well when present. -/
theorem C4_effective_key_branches (settings : Settings) (legacy_key job_scoped_key : String)
    (spider_name : Option String) (timestamp : Int) :
    (settings.use_job_scoped_keys = true ∧
        truthy (get_job_id_from_settings settings) = true →
      get_effective_key settings legacy_key job_scoped_key spider_name timestamp
        = expand_key_template job_scoped_key spider_name
            (get_job_id_from_settings settings) timestamp) ∧
    (¬ (settings.use_job_scoped_keys = true ∧
        truthy (get_job_id_from_settings settings) = true) →
      get_effective_key settings legacy_key job_scoped_key spider_name timestamp
        = expand_key_template legacy_key spider_name
            (get_job_id_from_settings settings) timestamp) ∧
    get_job_id_from_settings settings
      = (if truthy settings.job_id then settings.job_id
         else settings.scrapy_job_env) := by
  refine ⟨?_, ?_, rfl⟩ <;> intro h
  · rcases h with ⟨h1, h2⟩
    simp [get_effective_key, h1, h2]
  · have hb : (settings.use_job_scoped_keys &&
        truthy (get_job_id_from_settings settings)) = false := by
      cases hu : settings.use_job_scoped_keys <;>
        cases ht : truthy (get_job_id_from_settings settings) <;> simp_all
    simp [get_effective_key, hb]

/-- C4 witness: with job-scoped keys enabled and JOB_ID set, the job-scoped
queue template is the one expanded. -/
theorem C4_effective_key_branches_witness :
    get_effective_key ⟨true, some "j", none⟩ SCHEDULER_QUEUE_KEY
      JOB_SCOPED_SCHEDULER_QUEUE_KEY (some "sp") 0
      = expand_key_template JOB_SCOPED_SCHEDULER_QUEUE_KEY (some "sp")
          (get_job_id_from_settings ⟨true, some "j", none⟩) 0 :=
  (C4_effective_key_branches ⟨true, some "j", none⟩ SCHEDULER_QUEUE_KEY
    JOB_SCOPED_SCHEDULER_QUEUE_KEY (some "sp") 0).1 ⟨rfl, rfl⟩

/-- C1: enqueue_request returns false and pushes nothing exactly when the
request does not opt out of dedup and the filter reports it seen; otherwise
the request is pushed, true is returned, and the enqueued counter is
incremented whenever a stats collector is attached.  A second request with
the same fingerprint (dedup active on both) is rejected regardless of its
payload or priority. -/
theorem C1_enqueue_request_dedup (st : SchedState) (r : RRequest) :
    ((enqueue_request st r).1 = false ↔
      r.dont_filter = false ∧ st.df.contains r.fingerprint = true) ∧
    ((enqueue_request st r).1 = false →
      (enqueue_request st r).2.queue = st.queue ∧
      (enqueue_request st r).2.enqueued_count = st.enqueued_count) ∧
    ((enqueue_request st r).1 = true →
      (enqueue_request st r).2.queue = st.queue ++ [r] ∧
      (st.has_stats = true →
        (enqueue_request st r).2.enqueued_count = st.enqueued_count + 1)) ∧
    (∀ r2 : RRequest, r2.fingerprint = r.fingerprint → r.dont_filter = false →
      r2.dont_filter = false →
      (enqueue_request (enqueue_request st r).2 r2).1 = false) := by
  by_cases hd : r.dont_filter <;> by_cases hs : r.fingerprint ∈ st.df <;>
    by_cases hst : st.has_stats <;>
      simp [enqueue_request, request_seen, hd, hs, hst] <;>
        (intro r2 hfp hdf2
         simp [enqueue_request, request_seen, hfp, hdf2, hs, hst])

/-- C1 witness: a fresh state admits a request and rejects a second request
with equal fingerprint but different payload and priority. -/
theorem C1_enqueue_request_dedup_witness :
    (enqueue_request
      (enqueue_request ⟨[], [], 0, true⟩ ⟨"fp", false, 5, "payload", 0⟩).2
      ⟨"fp", false, 9, "other", 0⟩).1 = false :=
  (C1_enqueue_request_dedup ⟨[], [], 0, true⟩ ⟨"fp", false, 5, "payload", 0⟩).2.2.2
    ⟨"fp", false, 9, "other", 0⟩ rfl rfl rfl

/-- C2 counterexample: with priority_adjust -10 and original priority 0, the
accumulated priority after the second retry is -30, not the
0 + (-10) * 2 ^ (2 - 1) = -20 the claim states. -/
theorem C2_retry_priority_counterexample :
    (failTimes ⟨3, -10⟩ ⟨"u", false, 0, "p", 0⟩ 2).map RRequest.priority = some (-30) ∧
    ¬ ((failTimes ⟨3, -10⟩ ⟨"u", false, 0, "p", 0⟩ 2).map RRequest.priority
        = some (0 + (-10) * 2 ^ (2 - 1))) := by
  decide

/-- C2 amended: the accumulated priority after the k-th retry-eligible
failure within the retry budget is the original priority plus
priority_adjust * (2^k - 1): each single _retry call adds
priority_adjust * 2^(k-1) to the previous retry request's priority, and the
geometric increments accumulate. -/
theorem C2_retry_priority_accumulated (s : RetrySettings) (r : RRequest) (k : Nat)
    (h0 : r.retry_count = 0) (hk : k ≤ s.max_retry_times) :
    (failTimes s r k).map RRequest.priority =
      some (r.priority + s.priority_adjust * (2 ^ k - 1)) := by
  rw [failTimes_formula s r k h0 hk]
  rfl

/-- C2 witness: two retries at priority_adjust -10 from original priority 7
give 7 + (-10) * (2^2 - 1) = -23. -/
theorem C2_retry_priority_accumulated_witness :
    (failTimes ⟨3, -10⟩ ⟨"u", false, 7, "p", 0⟩ 2).map RRequest.priority
      = some (7 + (-10) * (2 ^ 2 - 1)) :=
  C2_retry_priority_accumulated ⟨3, -10⟩ ⟨"u", false, 7, "p", 0⟩ 2 rfl (by decide)

/-- C3: a task failing retry-eligibly is handed back to enqueue_request with
retry_count j on the j-th failure for every j up to max_retry_times, is
abandoned (no retry request built, enqueue_request not called) on the
(max_retry_times + 1)-th failure, and stays abandoned on every later
failure. -/
theorem C3_retry_bound (s : RetrySettings) (r : RRequest) (h0 : r.retry_count = 0) :
    (∀ j, 1 ≤ j → j ≤ s.max_retry_times →
      ∃ r', failTimes s r j = some r' ∧ r'.retry_count = j) ∧
    failTimes s r (s.max_retry_times + 1) = none ∧
    (∀ j, s.max_retry_times < j → failTimes s r j = none) := by
  refine ⟨?_, failTimes_abandoned s r h0 _ (by omega), failTimes_abandoned s r h0⟩
  intro j _ hj
  exact ⟨_, failTimes_formula s r j h0 hj, rfl⟩

/-- C3 witness: with the default budget of 3, the third failure still yields
a retry request with retry_count 3 and the fourth abandons the task. -/
theorem C3_retry_bound_witness :
    (∃ r', failTimes ⟨3, -10⟩ ⟨"u", false, 0, "p", 0⟩ 3 = some r' ∧ r'.retry_count = 3) ∧
    failTimes ⟨3, -10⟩ ⟨"u", false, 0, "p", 0⟩ 4 = none :=
  ⟨(C3_retry_bound ⟨3, -10⟩ ⟨"u", false, 0, "p", 0⟩ rfl).1 3 (by decide) (by decide),
   (C3_retry_bound ⟨3, -10⟩ ⟨"u", false, 0, "p", 0⟩ rfl).2.1⟩

/-- C7: closing without persistence clears the dedup set and the queue, and
the stats collector clears its counters; with persistence requested, both
leave the backing-store state untouched. -/
theorem C7_close_persistence (st : SchedState) (sst : StatsState) :
    (Scheduler.close false st).df = [] ∧
    (Scheduler.close false st).queue = [] ∧
    (sst.persist = false → (close_spider sst).counters = []) ∧
    Scheduler.close true st = st ∧
    (sst.persist = true → (close_spider sst).counters = sst.counters) := by
  refine ⟨rfl, rfl, ?_, rfl, ?_⟩ <;> intro h <;> simp [close_spider, clear_stats, h]

/-- C7 witness: a stats state with one counter is cleared without
persistence and kept with it. -/
theorem C7_close_persistence_witness :
    (close_spider ⟨[("scheduler/enqueued/redis", 3)], some "sp", false⟩).counters = [] ∧
    (close_spider ⟨[("scheduler/enqueued/redis", 3)], some "sp", true⟩).counters
      = [("scheduler/enqueued/redis", 3)] :=
  ⟨(C7_close_persistence ⟨[], [], 0, true⟩
      ⟨[("scheduler/enqueued/redis", 3)], some "sp", false⟩).2.2.1 rfl,
   (C7_close_persistence ⟨[], [], 0, true⟩
      ⟨[("scheduler/enqueued/redis", 3)], some "sp", true⟩).2.2.2.2 rfl⟩

/-- C8: get_serializer resolves the four registered names, raises ValueError
for every name that is neither registered nor importable, and raises
TypeError for a non-string argument lacking loads or dumps. -/
theorem C8_get_serializer_config (importEnv : String → Option SerializerImpl) :
    get_serializer importEnv (.str "json") = .ok .json ∧
    get_serializer importEnv (.str "msgpack") = .ok .msgpack ∧
    get_serializer importEnv (.str "pickle") = .ok .pickle ∧
    get_serializer importEnv (.str "picklecompat") = .ok .pickle ∧
    (∀ name, SERIALIZERS name = none → importEnv name = none →
      get_serializer importEnv (.str name) = .error .valueError) ∧
    (∀ (hl hd : Bool) impl, (hl && hd) = false →
      get_serializer importEnv (.obj hl hd impl) = .error .typeError) := by
  refine ⟨rfl, rfl, rfl, rfl, ?_, ?_⟩
  · intro name hreg himp
    by_cases hdot : name.data.contains '.' <;> simp [get_serializer, hreg, himp, hdot]
  · intro hl hd impl h
    simp [get_serializer, h]

/-- C8 witness: an unknown name and a dumps-less object fail with ValueError
and TypeError. -/
theorem C8_get_serializer_config_witness :
    get_serializer (fun _ => none) (.str "nosuch") = .error .valueError ∧
    get_serializer (fun _ => none) (.obj true false .json) = .error .typeError :=
  ⟨(C8_get_serializer_config (fun _ => none)).2.2.2.2.1 "nosuch" rfl rfl,
   (C8_get_serializer_config (fun _ => none)).2.2.2.2.2 true false .json rfl⟩

/-- C10: the Scheduler constructor raises TypeError on a negative
idle_before_close before initializing any state, and otherwise stores
exactly the given parameters, job_id falling back to the SCRAPY_JOB
environment variable. -/
theorem C10_scheduler_init (env : Option String) (server : String)
    (persist flush_on_start : Bool) (queue_key queue_cls : String)
    (dupefilter : Option String) (dupefilter_key dupefilter_cls : String)
    (idle_before_close : Int) (serializer job_id : Option String) :
    (idle_before_close < 0 →
      Scheduler.init env server persist flush_on_start queue_key queue_cls
        dupefilter dupefilter_key dupefilter_cls idle_before_close serializer
        job_id = .error .typeError) ∧
    (0 ≤ idle_before_close →
      Scheduler.init env server persist flush_on_start queue_key queue_cls
        dupefilter dupefilter_key dupefilter_cls idle_before_close serializer
        job_id = .ok ⟨server, persist, flush_on_start, queue_key, queue_cls,
          dupefilter, dupefilter_cls, dupefilter_key, idle_before_close,
          serializer, if truthy job_id then job_id else env, none⟩) := by
  constructor <;> intro h
  · simp [Scheduler.init, h]
  · simp [Scheduler.init, show ¬ idle_before_close < 0 by omega]

/-- C10 witness: idle_before_close -1 raises TypeError and 0 succeeds with
the job id taken from the environment. -/
theorem C10_scheduler_init_witness :
    Scheduler.init (some "envjob") "srv" false true "qk" "qc" none "dk" "dc"
      (-1) none none = .error .typeError ∧
    Scheduler.init (some "envjob") "srv" false true "qk" "qc" none "dk" "dc"
      0 none none = .ok ⟨"srv", false, true, "qk", "qc", none, "dc", "dk", 0,
        none, some "envjob", none⟩ :=
  ⟨(C10_scheduler_init (some "envjob") "srv" false true "qk" "qc" none "dk" "dc"
      (-1) none none).1 (by decide),
   (C10_scheduler_init (some "envjob") "srv" false true "qk" "qc" none "dk" "dc"
      0 none none).2 (by decide)⟩

/-! ### Namespace isolation -/

/-- The formatting scan maps a directive-free span to itself. -/
theorem fmtRun_literal (d : String) (p : String → Option PyVal) :
    ∀ (l : List Char) (used : Bool), (∀ c ∈ l, c ≠ '%') →
      fmtRun d p l .normal used = .ok (String.mk l) := by
  intro l
  induction l with
  | nil => intro used h; rfl
  | cons c rest ih =>
    intro used h
    have hc : c ≠ '%' := h c (List.mem_cons_self c rest)
    simp only [fmtRun, if_neg hc, ih used (fun x hx => h x (List.mem_cons_of_mem c hx))]
    rfl

/-- Expansion of a job-scoped template (job id, colon, spider name, colon, a
directive-free suffix) with both parameters present. -/
theorem expand_job_scoped (suffix : List Char) (hs : ∀ c ∈ suffix, c ≠ '%')
    (n j : String) (hn : n ≠ "") (hj : j ≠ "") (ts : Int) :
    expand_key_template (String.mk ('%' :: '(' :: 'j' :: 'o' :: 'b' :: '_' :: 'i'
        :: 'd' :: ')' :: 's' :: ':' :: '%' :: '(' :: 's' :: 'p' :: 'i' :: 'd'
        :: 'e' :: 'r' :: ')' :: 's' :: ':' :: suffix))
      (some n) (some j) ts
      = .ok (j ++ String.mk (':' :: (n ++ String.mk (':' :: suffix)).data)) := by
  have hn' : (n == "") = false := by simp [hn]
  have hj' : (j == "") = false := by simp [hj]
  simp [expand_key_template, pyFormat, fmtRun, expandParams, truthy, hn', hj',
    PyVal.toDisplay, fmtRun_literal _ _ suffix _ hs, Except.map]

/-- Right-cancellation of string append. -/
theorem str_append_cancel (j1 j2 t : String) (h : j1 ++ t = j2 ++ t) : j1 = j2 := by
  cases j1 with | mk d1 =>
  cases j2 with | mk d2 =>
  cases t with | mk dt =>
  have hd : d1 ++ dt = d2 ++ dt := congrArg String.data h
  exact congrArg String.mk (List.append_cancel_right hd)

/-- With job-scoped mode on and a truthy JOB_ID, the effective key is the
expanded job-scoped template. -/
theorem effective_job_scoped (legacy scoped_key : String) (suffix : List Char)
    (htpl : scoped_key.data
      = '%' :: '(' :: 'j' :: 'o' :: 'b' :: '_' :: 'i' :: 'd' :: ')' :: 's' :: ':'
        :: '%' :: '(' :: 's' :: 'p' :: 'i' :: 'd' :: 'e' :: 'r' :: ')' :: 's' :: ':' :: suffix)
    (hs : ∀ c ∈ suffix, c ≠ '%') (n j : String) (hn : n ≠ "") (hj : j ≠ "")
    (e : Option String) (ts : Int) :
    get_effective_key ⟨true, some j, e⟩ legacy scoped_key (some n) ts
      = .ok (j ++ String.mk (':' :: (n ++ String.mk (':' :: suffix)).data)) := by
  have hj' : truthy (some j) = true := by simp [truthy, hj]
  have hsc : scoped_key = String.mk ('%' :: '(' :: 'j' :: 'o' :: 'b' :: '_' :: 'i'
      :: 'd' :: ')' :: 's' :: ':' :: '%' :: '(' :: 's' :: 'p' :: 'i' :: 'd'
      :: 'e' :: 'r' :: ')' :: 's' :: ':' :: suffix) := by
    cases scoped_key with | mk d =>
    exact congrArg String.mk htpl
  have hjid : get_job_id_from_settings ⟨true, some j, e⟩ = some j := by
    simp [get_job_id_from_settings, hj']
  rw [hsc]
  simp [get_effective_key, hjid, hj']
  exact expand_job_scoped suffix hs n j hn hj ts

/-- C9: with job-scoped mode enabled, for one spider name and two distinct
(nonempty) job ids the resolved queue, dupefilter, stats and items keys all
differ between the two runs. -/
theorem C9_namespace_isolation (n j1 j2 : String) (e1 e2 : Option String)
    (ts1 ts2 : Int) (hn : n ≠ "") (hj1 : j1 ≠ "") (hj2 : j2 ≠ "") (hne : j1 ≠ j2) :
    get_effective_key ⟨true, some j1, e1⟩ SCHEDULER_QUEUE_KEY
        JOB_SCOPED_SCHEDULER_QUEUE_KEY (some n) ts1
      ≠ get_effective_key ⟨true, some j2, e2⟩ SCHEDULER_QUEUE_KEY
        JOB_SCOPED_SCHEDULER_QUEUE_KEY (some n) ts2 ∧
    get_effective_key ⟨true, some j1, e1⟩ SCHEDULER_DUPEFILTER_KEY
        JOB_SCOPED_SCHEDULER_DUPEFILTER_KEY (some n) ts1
      ≠ get_effective_key ⟨true, some j2, e2⟩ SCHEDULER_DUPEFILTER_KEY
        JOB_SCOPED_SCHEDULER_DUPEFILTER_KEY (some n) ts2 ∧
    get_effective_key ⟨true, some j1, e1⟩ STATS_KEY
        JOB_SCOPED_STATS_KEY (some n) ts1
      ≠ get_effective_key ⟨true, some j2, e2⟩ STATS_KEY
        JOB_SCOPED_STATS_KEY (some n) ts2 ∧
    get_effective_key ⟨true, some j1, e1⟩ PIPELINE_KEY
        JOB_SCOPED_PIPELINE_KEY (some n) ts1
      ≠ get_effective_key ⟨true, some j2, e2⟩ PIPELINE_KEY
        JOB_SCOPED_PIPELINE_KEY (some n) ts2 := by
  have key : ∀ (legacy scoped_key : String) (suffix : List Char),
      scoped_key.data = '%' :: '(' :: 'j' :: 'o' :: 'b' :: '_' :: 'i' :: 'd' :: ')'
        :: 's' :: ':' :: '%' :: '(' :: 's' :: 'p' :: 'i' :: 'd' :: 'e' :: 'r' :: ')'
        :: 's' :: ':' :: suffix →
      (∀ c ∈ suffix, c ≠ '%') →
      get_effective_key ⟨true, some j1, e1⟩ legacy scoped_key (some n) ts1
        ≠ get_effective_key ⟨true, some j2, e2⟩ legacy scoped_key (some n) ts2 := by
    intro legacy scoped_key suffix htpl hs heq
    rw [effective_job_scoped legacy scoped_key suffix htpl hs n j1 hn hj1 e1 ts1,
      effective_job_scoped legacy scoped_key suffix htpl hs n j2 hn hj2 e2 ts2] at heq
    exact hne (str_append_cancel j1 j2 _ (Except.ok.inj heq))
  exact ⟨key SCHEDULER_QUEUE_KEY JOB_SCOPED_SCHEDULER_QUEUE_KEY "requests".data
      (by decide) (by decide),
    key SCHEDULER_DUPEFILTER_KEY JOB_SCOPED_SCHEDULER_DUPEFILTER_KEY "dupefilter".data
      (by decide) (by decide),
    key STATS_KEY JOB_SCOPED_STATS_KEY "stats".data (by decide) (by decide),
    key PIPELINE_KEY JOB_SCOPED_PIPELINE_KEY "items".data (by decide) (by decide)⟩

/-- C9 witness: job ids a and b with spider sp resolve to different queue
keys. -/
theorem C9_namespace_isolation_witness :
    get_effective_key ⟨true, some "a", none⟩ SCHEDULER_QUEUE_KEY
        JOB_SCOPED_SCHEDULER_QUEUE_KEY (some "sp") 0
      ≠ get_effective_key ⟨true, some "b", none⟩ SCHEDULER_QUEUE_KEY
        JOB_SCOPED_SCHEDULER_QUEUE_KEY (some "sp") 0 :=
  (C9_namespace_isolation "sp" "a" "b" none none 0 0 (by decide) (by decide)
    (by decide) (by decide)).1

/-! ### Decimal rendering and parsing -/

/-- The digit characters are digits, with the expected numeric value. -/
theorem digitChar_spec (d : Nat) (h : d < 10) :
    isDig (digitChar d) = true ∧ charVal (digitChar d) = d := by
  interval_cases d <;> exact ⟨by decide, by decide⟩

/-- Decimal renderings are nonempty and consist of digits. -/
theorem decimal_spec (m : Nat) :
    (∀ c ∈ decimal m, isDig c = true) ∧ decimal m ≠ [] := by
  induction m using Nat.strong_induction_on with
  | _ m ih =>
    rw [decimal]
    by_cases h : m < 10
    · simp only [h, dif_pos]
      refine ⟨?_, by simp⟩
      intro c hc
      simp at hc
      subst hc
      exact (digitChar_spec m h).1
    · simp only [h, dif_neg, not_false_iff]
      have hlt : m / 10 < m := Nat.div_lt_self (by omega) (by omega)
      refine ⟨?_, by simp⟩
      intro c hc
      rcases List.mem_append.mp hc with hc | hc
      · exact (ih (m / 10) hlt).1 c hc
      · simp at hc
        subst hc
        exact (digitChar_spec (m % 10) (Nat.mod_lt _ (by omega))).1

/-- One-step unfolding of natCharsAux at positive fuel. -/
theorem natCharsAux_succ (fuel n : Nat) (acc : List Char) :
    natCharsAux (fuel + 1) n acc
      = if n < 10 then digitChar (n % 10) :: acc
        else natCharsAux fuel (n / 10) (digitChar (n % 10) :: acc) := rfl

/-- natCharsAux computes the decimal rendering whenever the fuel covers the
digit count. -/
theorem natCharsAux_eq_decimal :
    ∀ (fuel n : Nat) (acc : List Char), n < 10 ^ (fuel + 1) →
      natCharsAux (fuel + 1) n acc = decimal n ++ acc := by
  intro fuel
  induction fuel with
  | zero =>
    intro n acc h
    have h10 : n < 10 := by simpa using h
    rw [natCharsAux_succ, if_pos h10, Nat.mod_eq_of_lt h10, decimal]
    simp [h10]
  | succ fuel ih =>
    intro n acc h
    by_cases h10 : n < 10
    · rw [natCharsAux_succ, if_pos h10, Nat.mod_eq_of_lt h10, decimal]
      simp [h10]
    · rw [natCharsAux_succ, if_neg h10]
      have hdiv : n / 10 < 10 ^ (fuel + 1) := by
        rw [Nat.div_lt_iff_lt_mul (by omega)]
        calc n < 10 ^ (fuel + 1 + 1) := h
        _ = 10 ^ (fuel + 1) * 10 := by ring
      rw [ih (n / 10) _ hdiv]
      conv_rhs => rw [decimal]
      simp [h10]

/-- natChars is the decimal rendering. -/
theorem natChars_eq_decimal (n : Nat) : natChars n = decimal n := by
  have hpow : n < 10 ^ (n + 1) := by
    calc n < 10 ^ n := Nat.lt_pow_self (by omega) n
    _ ≤ 10 ^ (n + 1) := Nat.pow_le_pow_right (by omega) (by omega)
  rw [natChars, natCharsAux_eq_decimal n n [] hpow, List.append_nil]

/-- takeWhile and dropWhile split an all-true span followed by a stopper. -/
theorem span_append (p : Char → Bool) :
    ∀ (l1 l2 : List Char), (∀ c ∈ l1, p c = true) →
      (∀ c t, l2 = c :: t → p c = false) →
      (l1 ++ l2).takeWhile p = l1 ∧ (l1 ++ l2).dropWhile p = l2 := by
  intro l1
  induction l1 with
  | nil =>
    intro l2 _ h2
    cases l2 with
    | nil => exact ⟨rfl, rfl⟩
    | cons c t =>
      simp only [List.nil_append]
      simp [List.takeWhile, List.dropWhile, h2 c t rfl]
  | cons a l1 ih =>
    intro l2 h1 h2
    have ha : p a = true := h1 a (List.mem_cons_self a l1)
    have hrec := ih l2 (fun c hc => h1 c (List.mem_cons_of_mem a hc)) h2
    simp [List.takeWhile, List.dropWhile, ha, hrec.1, hrec.2]

/-- Folding the digit accumulator over a decimal rendering recovers the
number. -/
theorem foldl_decimal (m : Nat) :
    ∀ acc : Nat, (decimal m).foldl (fun acc c => acc * 10 + charVal c) acc
      = acc * 10 ^ (decimal m).length + m := by
  induction m using Nat.strong_induction_on with
  | _ m ih =>
    intro acc
    rw [decimal]
    by_cases h : m < 10
    · simp [h, (digitChar_spec m h).2]
    · simp only [h, dif_neg, not_false_iff]
      have hlt : m / 10 < m := Nat.div_lt_self (by omega) (by omega)
      rw [List.foldl_append, ih (m / 10) hlt acc]
      simp [(digitChar_spec (m % 10) (Nat.mod_lt _ (by omega))).2, pow_succ]
      ring_nf
      omega

/-- parseNat inverts the decimal rendering, stopping at a non-digit. -/
theorem parseNat_round (m : Nat) (rest : List Char) (hd : headNotDig rest = true) :
    parseNat (decimal m ++ rest) = some (m, rest) := by
  have hstop : ∀ c t, rest = c :: t → isDig c = false := by
    intro c t he
    subst he
    simpa [headNotDig] using hd
  have hspan := span_append isDig (decimal m) rest (decimal_spec m).1 hstop
  rw [parseNat]
  simp only [hspan.1, hspan.2]
  have hne : (decimal m).isEmpty = false := by
    cases hh : decimal m with
    | nil => exact absurd hh (decimal_spec m).2
    | cons a t => rfl
  simp only [hne, if_false, Bool.false_eq_true]
  rw [foldl_decimal m 0]
  simp

/-- parseIntTok inverts the integer rendering, stopping at a non-digit. -/
theorem parseIntTok_round (n : Int) (rest : List Char) (hd : headNotDig rest = true) :
    parseIntTok (intChars n ++ rest) = some (n, rest) := by
  by_cases hneg : n < 0
  · rw [intChars, if_pos hneg]
    rw [List.cons_append, parseIntTok]
    rw [if_pos rfl, natChars_eq_decimal, parseNat_round n.natAbs rest hd]
    simp only [Option.map]
    have hval : -(n.natAbs : Int) = n := by omega
    rw [hval]
  · rw [intChars, if_neg hneg, natChars_eq_decimal]
    obtain ⟨c, t, hct⟩ : ∃ c t, decimal n.toNat = c :: t := by
      cases hh : decimal n.toNat with
      | nil => exact absurd hh (decimal_spec n.toNat).2
      | cons c t => exact ⟨c, t, rfl⟩
    have hcd : isDig c = true := (decimal_spec n.toNat).1 c (by rw [hct]; exact List.mem_cons_self c t)
    have hcne : c ≠ '-' := by
      intro he
      subst he
      exact absurd hcd (by decide)
    rw [hct, List.cons_append, parseIntTok, if_neg hcne, ← List.cons_append, ← hct,
      parseNat_round n.toNat rest hd]
    simp only [Option.map]
    have hval : (n.toNat : Int) = n := by omega
    rw [hval]

/-! ### JSON rendering shape facts -/

/-- A digit or minus sign is no whitespace and no JSON structural opener. -/
theorem digit_dash_facts (c : Char) (h : isDig c = true ∨ c = '-') :
    isWs c = false ∧ c ≠ 'n' ∧ c ≠ 't' ∧ c ≠ 'f' ∧ c ≠ '"' ∧ c ≠ '[' ∧ c ≠ lbrace
      ∧ c ≠ ']' ∧ c ≠ rbrace ∧ c ≠ ',' := by
  rcases h with h | rfl
  · have hb : 48 ≤ c.toNat ∧ c.toNat ≤ 57 := by simpa [isDig] using h
    have hws : isWs c = false := by
      cases hw : isWs c
      · rfl
      · exfalso
        have hor : ((c = ' ' ∨ c = '\t') ∨ c = '\n') ∨ c = '\x0d' := by
          simpa [isWs] using hw
        rcases hor with ((rfl | rfl) | rfl) | rfl <;> revert hb <;> decide
    refine ⟨hws, ?_, ?_, ?_, ?_, ?_, ?_, ?_, ?_, ?_⟩ <;>
      (intro he; subst he; exact absurd h (by decide))
  · exact ⟨by decide, by decide, by decide, by decide, by decide, by decide,
      by decide, by decide, by decide, by decide⟩

/-- The integer rendering starts with a digit or a minus sign. -/
theorem intChars_shape (n : Int) :
    ∃ c t, intChars n = c :: t ∧ (isDig c = true ∨ c = '-') := by
  rw [intChars]
  by_cases hneg : n < 0
  · rw [if_pos hneg]
    exact ⟨'-', _, rfl, Or.inr rfl⟩
  · rw [if_neg hneg, natChars_eq_decimal]
    obtain ⟨c, t, hct⟩ : ∃ c t, decimal n.toNat = c :: t := by
      cases hh : decimal n.toNat with
      | nil => exact absurd hh (decimal_spec n.toNat).2
      | cons c t => exact ⟨c, t, rfl⟩
    refine ⟨c, t, hct, Or.inl ?_⟩
    exact (decimal_spec n.toNat).1 c (by rw [hct]; exact List.mem_cons_self c t)

/-- The string-literal body parser inverts the escaping of escChar. -/
theorem parseStrBody_round : ∀ (s rest : List Char),
    parseStrBody (escapeStr s ++ '"' :: rest) = some (s, rest) := by
  intro s
  induction s with
  | nil =>
    intro rest
    have h0 : escapeStr [] = [] := by simp [escapeStr]
    rw [h0, List.nil_append, parseStrBody.eq_def]
    simp
  | cons c s ih =>
    intro rest
    have hesc : escapeStr (c :: s) = escChar c ++ escapeStr s := by simp [escapeStr]
    rw [hesc, List.append_assoc]
    by_cases h1 : c = '"'
    · subst h1
      have he : escChar '"' = ['\\', '"'] := by decide
      rw [he, List.cons_append, List.cons_append, List.nil_append, parseStrBody.eq_def]
      simp [ih rest]
    · by_cases h2 : c = '\\'
      · subst h2
        have he : escChar '\\' = ['\\', '\\'] := by decide
        rw [he, List.cons_append, List.cons_append, List.nil_append, parseStrBody.eq_def]
        simp [ih rest]
      · have he : escChar c = [c] := by simp [escChar, h1, h2]
        rw [he, List.cons_append, List.nil_append, parseStrBody.eq_def]
        simp [h1, h2, ih rest]

/-- skipWs does not move past a non-whitespace head. -/
theorem skipWs_not_ws (c : Char) (l : List Char) (h : isWs c = false) :
    skipWs (c :: l) = c :: l := by
  simp [skipWs, List.dropWhile_cons, h]

/-- skipWs consumes a whitespace head. -/
theorem skipWs_ws (c : Char) (l : List Char) (h : isWs c = true) :
    skipWs (c :: l) = skipWs l := by
  simp [skipWs, List.dropWhile_cons, h]

/-- Every jdumps rendering starts with a non-whitespace character that is
neither a closing bracket nor a closing brace. -/
theorem jdumps_head (v : JVal) :
    ∃ c t, jdumps v = c :: t ∧ isWs c = false ∧ c ≠ ']' ∧ c ≠ rbrace := by
  cases v with
  | null => exact ⟨'n', _, rfl, by decide, by decide, by decide⟩
  | bool b =>
    cases b with
    | false => exact ⟨'f', _, rfl, by decide, by decide, by decide⟩
    | true => exact ⟨'t', _, rfl, by decide, by decide, by decide⟩
  | int n =>
    obtain ⟨c, t, hct, hc⟩ := intChars_shape n
    have hf := digit_dash_facts c hc
    exact ⟨c, t, by rw [show jdumps (.int n) = intChars n from rfl, hct],
      hf.1, hf.2.2.2.2.2.2.2.1, hf.2.2.2.2.2.2.2.2.1⟩
  | str s => exact ⟨'"', _, rfl, by decide, by decide, by decide⟩
  | arr xs => exact ⟨'[', _, rfl, by decide, by decide, by decide⟩
  | obj kvs => exact ⟨lbrace, _, rfl, by decide, by decide, by decide⟩

/-- Parser fuel requirements are positive. -/
theorem jsize_pos (v : JVal) : 1 ≤ jsize v := by
  cases v <;> simp [jsize]

/-- Nonempty element runs need fuel. -/
theorem jsizeL_pos (xs : List JVal) (h : xs ≠ []) : 1 ≤ jsizeL xs := by
  cases xs with
  | nil => exact absurd rfl h
  | cons x xs => simp [jsizeL]; omega

/-- Nonempty member runs need fuel. -/
theorem jsizeM_pos (kvs : List (List Char × JVal)) (h : kvs ≠ []) : 1 ≤ jsizeM kvs := by
  cases kvs with
  | nil => exact absurd rfl h
  | cons kv kvs =>
    obtain ⟨k, v⟩ := kv
    simp [jsizeM]
    omega

mutual

/-- The parser fuel requirement is within twice the rendering length. -/
theorem jsize_le : ∀ v : JVal, jsize v ≤ 2 * (jdumps v).length
  | .null => by simp [jsize, jdumps]
  | .bool b => by cases b <;> simp [jsize, jdumps]
  | .int n => by
    obtain ⟨c, t, hct, _⟩ := intChars_shape n
    have : jdumps (.int n) = c :: t := by rw [show jdumps (.int n) = intChars n from rfl, hct]
    simp [jsize, this]
    omega
  | .str s => by
    simp [jsize, jdumps]
    omega
  | .arr xs => by
    have h := jsizeL_le xs
    simp [jsize, jdumps]
    omega
  | .obj kvs => by
    have h := jsizeM_le kvs
    simp [jsize, jdumps]
    omega

/-- Element-run fuel requirement against the rendered elements. -/
theorem jsizeL_le : ∀ xs : List JVal, jsizeL xs ≤ 2 * (jdumpsElems xs).length + 1
  | [] => by simp [jsizeL]
  | x :: xs => by
    have h1 := jsize_le x
    have h2 := jsizeL_le xs
    cases xs <;> simp [jsizeL, jdumpsElems, jsize] at h1 h2 ⊢ <;> omega

/-- Member-run fuel requirement against the rendered members. -/
theorem jsizeM_le : ∀ kvs : List (List Char × JVal),
    jsizeM kvs ≤ 2 * (jdumpsMembers kvs).length + 1
  | [] => by simp [jsizeM]
  | (k, v) :: kvs => by
    have h1 := jsize_le v
    have h2 := jsizeM_le kvs
    cases kvs <;> simp [jsizeM, jdumpsMembers, jsize] at h1 h2 ⊢ <;> omega

end



/-- A one-mode parse of an integer rendering. -/
theorem parseJ_one_int (fuel : Nat) (n : Int) (rest : List Char)
    (hd : headNotDig rest = true) :
    parseJ (fuel + 1) .one (intChars n ++ rest) = some (.v (.int n), rest) := by
  obtain ⟨c, t, hct, hc⟩ := intChars_shape n
  have hf := digit_dash_facts c hc
  rw [hct, List.cons_append, parseJ.eq_def]
  simp only [skipWs_not_ws c (t ++ rest) hf.1]
  rw [if_neg hf.2.1, if_neg hf.2.2.1, if_neg hf.2.2.2.1, if_neg hf.2.2.2.2.1,
    if_neg hf.2.2.2.2.2.1, if_neg hf.2.2.2.2.2.2.1]
  rw [← List.cons_append, ← hct, parseIntTok_round n rest hd]
  rfl

/-- A leading space is insignificant to a one-mode parse. -/
theorem parseJ_one_ws (f : Nat) (l : List Char) :
    parseJ (f + 1) .one (' ' :: l) = parseJ (f + 1) .one l := by
  conv_lhs => rw [parseJ.eq_def]
  conv_rhs => rw [parseJ.eq_def]
  simp only [skipWs_ws ' ' l (by decide)]

/-- A leading space is insignificant to a members-mode parse. -/
theorem parseJ_members_ws (f : Nat) (l : List Char) :
    parseJ (f + 1) .members (' ' :: l) = parseJ (f + 1) .members l := by
  conv_lhs => rw [parseJ.eq_def]
  conv_rhs => rw [parseJ.eq_def]
  simp only [skipWs_ws ' ' l (by decide)]

/-- One-step unfolding of the elems mode at positive fuel. -/
theorem parseJ_elems_eq (fuel : Nat) (l : List Char) :
    parseJ (fuel + 1) .elems l
      = match parseJ fuel .one l with
        | some (.v x, r) =>
          (match skipWs r with
           | [] => none
           | c :: rest =>
             if c = ',' then
               match parseJ fuel .elems (skipWs rest) with
               | some (.vs xs, r2) => some (.vs (x :: xs), r2)
               | _ => none
             else if c = ']' then some (.vs [x], rest)
             else none)
        | _ => none := rfl

/-- One-step unfolding of the members mode at positive fuel. -/
theorem parseJ_members_eq (fuel : Nat) (l : List Char) :
    parseJ (fuel + 1) .members l
      = match skipWs l with
        | [] => none
        | c :: rest =>
          if c = '"' then
            match parseStrBody rest with
            | none => none
            | some (k, r1) =>
              match skipWs r1 with
              | [] => none
              | c2 :: r2 =>
                if c2 = ':' then
                  match parseJ fuel .one r2 with
                  | some (.v x, r3) =>
                    (match skipWs r3 with
                     | [] => none
                     | c3 :: r4 =>
                       if c3 = ',' then
                         match parseJ fuel .members r4 with
                         | some (.ms kvs, r5) => some (.ms ((k, x) :: kvs), r5)
                         | _ => none
                       else if c3 = rbrace then some (.ms [(k, x)], r4)
                       else none)
                  | _ => none
                else none
          else none := rfl

/-- The JSON parser inverts jdumps: in one mode on a rendered value, in
elems mode on rendered array items before the closing bracket, in members
mode on rendered object members before the closing brace. -/
theorem parseJ_round : ∀ fuel : Nat,
    (∀ (v : JVal) (rest : List Char), wfJ v = true → jsize v ≤ fuel →
      headNotDig rest = true →
      parseJ fuel .one (jdumps v ++ rest) = some (.v v, rest)) ∧
    (∀ (xs : List JVal) (rest : List Char), wfArr xs = true → xs ≠ [] →
      jsizeL xs ≤ fuel →
      parseJ fuel .elems (jdumpsElems xs ++ ']' :: rest) = some (.vs xs, rest)) ∧
    (∀ (kvs : List (List Char × JVal)) (rest : List Char), wfObjL kvs = true →
      kvs ≠ [] → jsizeM kvs ≤ fuel →
      parseJ fuel .members (jdumpsMembers kvs ++ rbrace :: rest)
        = some (.ms kvs, rest)) := by
  intro fuel
  induction fuel with
  | zero =>
    refine ⟨?_, ?_, ?_⟩
    · intro v rest _ hsz _
      exact absurd hsz (by have := jsize_pos v; omega)
    · intro xs rest _ hne hsz
      exact absurd hsz (by have := jsizeL_pos xs hne; omega)
    · intro kvs rest _ hne hsz
      exact absurd hsz (by have := jsizeM_pos kvs hne; omega)
  | succ fuel ih =>
    obtain ⟨ihA, ihB, ihC⟩ := ih
    refine ⟨?_, ?_, ?_⟩
    · intro v rest hwf hsz hd
      cases v with
      | null =>
        rw [show jdumps .null ++ rest = 'n' :: 'u' :: 'l' :: 'l' :: rest from rfl,
          parseJ.eq_def]
        simp [skipWs, isWs, matchTok]
      | bool b =>
        cases b with
        | false =>
          rw [show jdumps (.bool false) ++ rest = 'f' :: 'a' :: 'l' :: 's' :: 'e' :: rest from rfl,
            parseJ.eq_def]
          simp [skipWs, isWs, matchTok]
        | true =>
          rw [show jdumps (.bool true) ++ rest = 't' :: 'r' :: 'u' :: 'e' :: rest from rfl,
            parseJ.eq_def]
          simp [skipWs, isWs, matchTok]
      | int n => exact parseJ_one_int fuel n rest hd
      | str s =>
        have hin : jdumps (.str s) ++ rest = '"' :: (escapeStr s ++ '"' :: rest) := by
          rw [show jdumps (.str s) = '"' :: escapeStr s ++ ['"'] from rfl]
          simp
        rw [hin, parseJ.eq_def]
        simp [skipWs, isWs, parseStrBody_round]
      | arr xs =>
        cases xs with
        | nil =>
          rw [show jdumps (.arr []) ++ rest = '[' :: ']' :: rest from by
            rw [show jdumps (.arr []) = '[' :: jdumpsElems [] ++ [']'] from rfl]; simp [jdumpsElems]]
          rw [parseJ.eq_def]
          simp [skipWs, isWs]
        | cons x xs =>
          have hwf' : wfArr (x :: xs) = true := by
            simp [wfJ] at hwf
            exact hwf.2
          have hsz' : jsizeL (x :: xs) ≤ fuel := by
            simp only [jsize] at hsz
            omega
          obtain ⟨c, t, hD, hws, hnsb, hnrb⟩ := jdumps_head x
          have hin : jdumps (.arr (x :: xs)) ++ rest
              = '[' :: (jdumpsElems (x :: xs) ++ ']' :: rest) := by
            rw [show jdumps (.arr (x :: xs)) = '[' :: jdumpsElems (x :: xs) ++ [']'] from rfl]
            simp
          have hEexp : jdumpsElems (x :: xs) ++ ']' :: rest
              = c :: (t ++ ((if xs.isEmpty then [] else [',', ' ']) ++ (jdumpsElems xs ++ ']' :: rest))) := by
            rw [show jdumpsElems (x :: xs)
              = jdumps x ++ (if xs.isEmpty then [] else [',', ' ']) ++ jdumpsElems xs from rfl, hD]
            simp
          rw [hin, parseJ.eq_def]
          simp only [skipWs_not_ws '[' _ (by decide)]
          rw [if_true, hEexp]
          simp only [skipWs_not_ws c _ hws]
          rw [if_neg hnsb, ← hEexp, ihB (x :: xs) rest hwf' (by simp) hsz']
          simp
      | obj kvs =>
        cases kvs with
        | nil =>
          rw [show jdumps (.obj []) ++ rest = lbrace :: rbrace :: rest from by
            rw [show jdumps (.obj []) = lbrace :: jdumpsMembers [] ++ [rbrace] from rfl]; simp [jdumpsMembers]]
          rw [parseJ.eq_def]
          simp [skipWs, isWs, lbrace, rbrace]
        | cons kv kvs =>
          obtain ⟨k, v⟩ := kv
          have hwf' : wfObjL ((k, v) :: kvs) = true := by
            simp only [wfJ, Bool.and_eq_true] at hwf
            exact hwf.2
          have hsz' : jsizeM ((k, v) :: kvs) ≤ fuel := by
            simp only [jsize] at hsz
            omega
          have hin : jdumps (.obj ((k, v) :: kvs)) ++ rest
              = lbrace :: (jdumpsMembers ((k, v) :: kvs) ++ rbrace :: rest) := by
            rw [show jdumps (.obj ((k, v) :: kvs))
              = lbrace :: jdumpsMembers ((k, v) :: kvs) ++ [rbrace] from rfl]
            simp
          have hMexp : jdumpsMembers ((k, v) :: kvs) ++ rbrace :: rest
              = '"' :: (escapeStr k ++ '"' :: ':' :: ' ' :: jdumps v
                ++ ((if kvs.isEmpty then [] else [',', ' ']) ++ (jdumpsMembers kvs ++ rbrace :: rest))) := by
            rw [show jdumpsMembers ((k, v) :: kvs)
              = '"' :: escapeStr k ++ '"' :: ':' :: ' ' :: jdumps v
                ++ (if kvs.isEmpty then [] else [',', ' ']) ++ jdumpsMembers kvs from rfl]
            simp
          rw [hin, parseJ.eq_def]
          simp only [skipWs_not_ws lbrace _ (by decide)]
          rw [if_neg (by decide), if_neg (by decide), if_neg (by decide),
            if_neg (by decide), if_neg (by decide), if_true, hMexp]
          simp only [skipWs_not_ws '"' _ (by decide)]
          rw [if_neg (by decide), ← hMexp, ihC ((k, v) :: kvs) rest hwf' (by simp) hsz']
    · intro xs rest hwf hne hsz
      cases xs with
      | nil => exact absurd rfl hne
      | cons x xs =>
        have hwfx : wfJ x = true := by
          simp only [wfArr, Bool.and_eq_true] at hwf
          exact hwf.1
        have hwfxs : wfArr xs = true := by
          simp only [wfArr, Bool.and_eq_true] at hwf
          exact hwf.2
        cases xs with
        | nil =>
          have hE : jdumpsElems [x] ++ ']' :: rest = jdumps x ++ ']' :: rest := by
            simp [jdumpsElems]
          have hszx : jsize x ≤ fuel := by
            simp [jsizeL] at hsz
            omega
          rw [hE, parseJ_elems_eq, ihA x (']' :: rest) hwfx hszx rfl]
          simp only [skipWs_not_ws ']' rest (by decide)]
          simp
        | cons y ys =>
          have hY : jdumpsElems (x :: y :: ys) ++ ']' :: rest
              = jdumps x ++ (',' :: ' ' :: (jdumpsElems (y :: ys) ++ ']' :: rest)) := by
            rw [show jdumpsElems (x :: y :: ys)
              = jdumps x ++ (if (y :: ys).isEmpty then [] else [',', ' '])
                ++ jdumpsElems (y :: ys) from rfl]
            simp
          have hszx : jsize x ≤ fuel := by
            simp [jsizeL] at hsz
            omega
          have hszt : jsizeL (y :: ys) ≤ fuel := by
            simp [jsizeL] at hsz ⊢
            omega
          rw [hY, parseJ_elems_eq,
            ihA x (',' :: ' ' :: (jdumpsElems (y :: ys) ++ ']' :: rest)) hwfx hszx rfl]
          simp only [skipWs_not_ws ',' _ (by decide)]
          rw [if_true, skipWs_ws ' ' _ (by decide)]
          obtain ⟨c, t, hD, hws, hc1, hc2⟩ := jdumps_head y
          have hZ : jdumpsElems (y :: ys) ++ ']' :: rest
              = c :: (t ++ ((if ys.isEmpty then [] else [',', ' '])
                ++ (jdumpsElems ys ++ ']' :: rest))) := by
            rw [show jdumpsElems (y :: ys)
              = jdumps y ++ (if ys.isEmpty then [] else [',', ' '])
                ++ jdumpsElems ys from rfl, hD]
            simp
          rw [hZ, skipWs_not_ws c _ hws, ← hZ,
            ihB (y :: ys) rest hwfxs (by simp) hszt]
    · intro kvs rest hwf hne hsz
      cases kvs with
      | nil => exact absurd rfl hne
      | cons kv kvs =>
        obtain ⟨k, v⟩ := kv
        have hwfs : wfJ v = true ∧ wfObjL kvs = true := by
          simp only [wfObjL, Bool.and_eq_true] at hwf
          exact ⟨hwf.1.2, hwf.2⟩
        have hszv : jsize v ≤ fuel := by
          simp [jsizeM] at hsz
          omega
        obtain ⟨f, rfl⟩ : ∃ f, fuel = f + 1 := by
          have := jsize_pos v
          exact ⟨fuel - 1, by omega⟩
        rw [parseJ_members_eq]
        cases kvs with
        | nil =>
          have hM : jdumpsMembers [(k, v)] ++ rbrace :: rest
              = '"' :: (escapeStr k ++ '"' :: (':' :: (' ' :: (jdumps v
                ++ rbrace :: rest)))) := by
            rw [show jdumpsMembers [(k, v)]
              = '"' :: escapeStr k ++ '"' :: ':' :: ' ' :: jdumps v
                ++ (if ([] : List (List Char × JVal)).isEmpty then [] else [',', ' '])
                ++ jdumpsMembers [] from rfl]
            simp [jdumpsMembers]
          rw [hM]
          simp only [skipWs_not_ws '"' _ (by decide)]
          rw [if_true, parseStrBody_round k _]
          simp only [skipWs_not_ws ':' _ (by decide)]
          rw [if_true, parseJ_one_ws f _,
            ihA v (rbrace :: rest) hwfs.1 hszv rfl]
          simp only [skipWs_not_ws rbrace _ (by decide)]
          rw [if_neg (by decide), if_true]
        | cons kv2 kvs2 =>
          have hszt : jsizeM (kv2 :: kvs2) ≤ f + 1 := by
            simp [jsizeM] at hsz ⊢
            omega
          have hM : jdumpsMembers ((k, v) :: kv2 :: kvs2) ++ rbrace :: rest
              = '"' :: (escapeStr k ++ '"' :: (':' :: (' ' :: (jdumps v
                ++ (',' :: ' ' :: (jdumpsMembers (kv2 :: kvs2) ++ rbrace :: rest)))))) := by
            rw [show jdumpsMembers ((k, v) :: kv2 :: kvs2)
              = '"' :: escapeStr k ++ '"' :: ':' :: ' ' :: jdumps v
                ++ (if (kv2 :: kvs2).isEmpty then [] else [',', ' '])
                ++ jdumpsMembers (kv2 :: kvs2) from rfl]
            simp
          rw [hM]
          simp only [skipWs_not_ws '"' _ (by decide)]
          rw [if_true, parseStrBody_round k _]
          simp only [skipWs_not_ws ':' _ (by decide)]
          rw [if_true, parseJ_one_ws f _,
            ihA v (',' :: ' ' :: (jdumpsMembers (kv2 :: kvs2) ++ rbrace :: rest))
              hwfs.1 hszv rfl]
          simp only [skipWs_not_ws ',' _ (by decide)]
          rw [if_true, parseJ_members_ws f _,
            ihC (kv2 :: kvs2) rest hwfs.2 (by simp) hszt]



/-- json.loads inverts json.dumps on well-formed payloads (string level). -/
theorem jloads_jdumps (v : JVal) (hwf : wfJ v = true) : jloads (jdumps v) = some v := by
  have hb := jsize_le v
  have h := (parseJ_round (4 * (jdumps v).length + 4)).1 v [] hwf (by omega) rfl
  rw [List.append_nil] at h
  rw [jloads, h]
  rfl

/-- Decoding after encoding one scalar prepends that scalar. -/
theorem utf8CharF_round (c : Char) (fuel : Nat) (bs : List Nat) :
    utf8DecodeF (fuel + 1) (utf8Char c ++ bs)
      = (utf8DecodeF fuel bs).map fun cs => c :: cs := by
  have hval : c.toNat < 55296 ∨ (57344 ≤ c.toNat ∧ c.toNat < 1114112) := by
    rcases c.valid with h | ⟨h1, h2⟩
    · exact Or.inl h
    · exact Or.inr ⟨h1, h2⟩
  have hofn : Char.ofNat c.toNat = c := Char.ofNat_toNat c
  rw [utf8Char]
  by_cases h1 : c.toNat < 128
  · rw [if_pos h1, show ([c.toNat] : List Nat) ++ bs = c.toNat :: bs from rfl]
    simp only [utf8DecodeF]
    rw [if_pos h1, hofn]
  · rw [if_neg h1]
    by_cases h2 : c.toNat < 2048
    · rw [if_pos h2, show ([192 + c.toNat / 64, 128 + c.toNat % 64] : List Nat) ++ bs
        = (192 + c.toNat / 64) :: (128 + c.toNat % 64) :: bs from rfl]
      simp only [utf8DecodeF]
      rw [if_neg (by omega), if_neg (by omega), if_pos (by omega)]
      simp only [utf8Take2]
      rw [if_pos (by simp only [Bool.and_eq_true, decide_eq_true_eq]; omega)]
      rw [if_pos (by omega)]
      have hn : (192 + c.toNat / 64 - 192) * 64 + (128 + c.toNat % 64 - 128) = c.toNat := by
        omega
      simp only [hn, hofn]
    · rw [if_neg h2]
      by_cases h3 : c.toNat < 65536
      · rw [if_pos h3, show ([224 + c.toNat / 4096, 128 + c.toNat / 64 % 64,
            128 + c.toNat % 64] : List Nat) ++ bs
          = (224 + c.toNat / 4096) :: (128 + c.toNat / 64 % 64)
            :: (128 + c.toNat % 64) :: bs from rfl]
        simp only [utf8DecodeF]
        rw [if_neg (by omega), if_neg (by omega), if_neg (by omega), if_pos (by omega)]
        simp only [utf8Take3]
        rw [if_pos (by simp only [Bool.and_eq_true, decide_eq_true_eq]; omega)]
        rw [if_pos (by
          simp only [Bool.and_eq_true, Bool.not_eq_true', Bool.and_eq_false_iff,
            decide_eq_true_eq, decide_eq_false_iff_not]
          omega)]
        have hn : (224 + c.toNat / 4096 - 224) * 4096 + (128 + c.toNat / 64 % 64 - 128) * 64
            + (128 + c.toNat % 64 - 128) = c.toNat := by
          omega
        simp only [hn, hofn]
      · rw [if_neg h3, show ([240 + c.toNat / 262144, 128 + c.toNat / 4096 % 64,
            128 + c.toNat / 64 % 64, 128 + c.toNat % 64] : List Nat) ++ bs
          = (240 + c.toNat / 262144) :: (128 + c.toNat / 4096 % 64)
            :: (128 + c.toNat / 64 % 64) :: (128 + c.toNat % 64) :: bs from rfl]
        simp only [utf8DecodeF]
        rw [if_neg (by omega), if_neg (by omega), if_neg (by omega), if_neg (by omega),
          if_pos (by omega)]
        simp only [utf8Take4]
        rw [if_pos (by simp only [Bool.and_eq_true, decide_eq_true_eq]; omega)]
        rw [if_pos (by simp only [Bool.and_eq_true, decide_eq_true_eq]; omega)]
        have hn : (240 + c.toNat / 262144 - 240) * 262144
            + (128 + c.toNat / 4096 % 64 - 128) * 4096
            + (128 + c.toNat / 64 % 64 - 128) * 64 + (128 + c.toNat % 64 - 128)
            = c.toNat := by
          omega
        simp only [hn, hofn]

/-- Decoding inverts string encoding, with any fuel beyond the character
count. -/
theorem utf8StrF_round : ∀ (s : List Char) (fuel : Nat), s.length < fuel →
    utf8DecodeF fuel (utf8Str s) = some s := by
  intro s
  induction s with
  | nil =>
    intro fuel hf
    cases fuel with
    | zero => omega
    | succ f => rfl
  | cons c s ih =>
    intro fuel hf
    cases fuel with
    | zero => omega
    | succ f =>
      rw [show utf8Str (c :: s) = utf8Char c ++ utf8Str s from by simp [utf8Str],
        utf8CharF_round, ih f (by simp at hf; omega)]
      rfl

/-- Every scalar encodes to at least one byte. -/
theorem utf8Char_length_pos (c : Char) : 1 ≤ (utf8Char c).length := by
  rw [utf8Char]
  by_cases h1 : c.toNat < 128
  · simp [h1]
  · by_cases h2 : c.toNat < 2048
    · simp [h1, h2]
    · by_cases h3 : c.toNat < 65536
      · simp [h1, h2, h3]
      · simp [h1, h2, h3]

/-- The byte length dominates the character count. -/
theorem utf8Str_length_ge : ∀ s : List Char, s.length ≤ (utf8Str s).length := by
  intro s
  induction s with
  | nil => simp [utf8Str]
  | cons c s ih =>
    have h := utf8Char_length_pos c
    rw [show utf8Str (c :: s) = utf8Char c ++ utf8Str s from by simp [utf8Str]]
    simp only [List.length_cons, List.length_append]
    omega

/-- bytes.decode inverts str.encode. -/
theorem utf8_round (s : List Char) : utf8Decode (utf8Str s) = some s := by
  have h1 := utf8Str_length_ge s
  exact utf8StrF_round s ((utf8Str s).length + 1) (by omega)

/-- The JSON serializer round trip on well-formed payloads. -/
theorem JsonSerializer_round (v : JVal) (hwf : wfJ v = true) :
    JsonSerializer.loads (JsonSerializer.dumps v) = some v := by
  rw [JsonSerializer.loads, JsonSerializer.dumps, utf8_round, Option.some_bind,
    jloads_jdumps v hwf]

end ScrapyRedis
namespace ScrapyRedis

/-- Each scalar utf-8 encoding takes at most four bytes. -/
theorem utf8Char_length_le (c : Char) : (utf8Char c).length ≤ 4 := by
  rw [utf8Char]
  by_cases h1 : c.toNat < 128
  · simp [h1]
  · by_cases h2 : c.toNat < 2048
    · simp [h1, h2]
    · by_cases h3 : c.toNat < 65536
      · simp [h1, h2, h3]
      · simp [h1, h2, h3]

/-- The byte length is at most four times the character count. -/
theorem utf8Str_length_le : ∀ s : List Char, (utf8Str s).length ≤ 4 * s.length := by
  intro s
  induction s with
  | nil => simp [utf8Str]
  | cons c s ih =>
    have h := utf8Char_length_le c
    rw [show utf8Str (c :: s) = utf8Char c ++ utf8Str s from by simp [utf8Str]]
    simp only [List.length_cons, List.length_append]
    omega

/-- Reading exactly the length of a known block returns that block. -/
theorem readN_exact : ∀ (l1 l2 : List Nat), readN l1.length (l1 ++ l2) = some (l1, l2) := by
  intro l1
  induction l1 with
  | nil => intro l2; rfl
  | cons b t ih =>
    intro l2
    rw [show (b :: t).length = t.length + 1 from rfl, List.cons_append, readN, ih l2]
    rfl

/-- Reading a utf-8 body of the exact encoded length decodes the string. -/
theorem readStr_exact (s : List Char) (r : List Nat) :
    readStr (utf8Str s).length (utf8Str s ++ r) = some (s, r) := by
  rw [readStr, readN_exact]
  simp [utf8_round]

/-- mpInt never emits an empty encoding. -/
theorem mpInt_length_pos (n : Int) : 1 ≤ (mpInt n).length := by
  simp only [mpInt]
  split_ifs <;> simp [be2, be4, be8]

/-- mpStr never emits an empty encoding. -/
theorem mpStr_length_pos (s : List Char) : 1 ≤ (mpStr s).length := by
  simp only [mpStr, mpStrHdr]
  split_ifs <;> simp [be2, be4]

/-- mpack never emits an empty encoding. -/
theorem mpack_length_pos (v : JVal) : 1 ≤ (mpack v).length := by
  cases v with
  | null => simp [mpack]
  | bool b => cases b <;> simp [mpack]
  | int n => rw [show mpack (.int n) = mpInt n from rfl]; exact mpInt_length_pos n
  | str s => rw [show mpack (.str s) = mpStr s from rfl]; exact mpStr_length_pos s
  | arr xs =>
    rw [show mpack (.arr xs) = mpArrHdr xs.length ++ mpackElems xs from rfl]
    simp only [mpArrHdr]
    split_ifs <;> simp [be2, be4]
  | obj kvs =>
    rw [show mpack (.obj kvs) = mpMapHdr kvs.length ++ mpackMembers kvs from rfl]
    simp only [mpMapHdr]
    split_ifs <;> simp [be2, be4]

/-- Every value needs fuel to decode. -/
theorem msize_pos (v : JVal) : 1 ≤ msize v := by
  cases v <;> simp [msize] <;> omega

mutual

/-- The decoder fuel requirement is within three times the encoded length. -/
theorem msize_le : ∀ v : JVal, msize v + 1 ≤ 3 * (mpack v).length
  | .null => by simp [msize, mpack]
  | .bool b => by cases b <;> simp [msize, mpack]
  | .int n => by
    have h := mpInt_length_pos n
    rw [show mpack (.int n) = mpInt n from rfl]
    simp [msize]
    omega
  | .str s => by
    have h := mpStr_length_pos s
    rw [show mpack (.str s) = mpStr s from rfl]
    simp [msize]
    omega
  | .arr xs => by
    have h := msizeL_le xs
    have hh : 1 ≤ (mpArrHdr xs.length).length := by
      simp only [mpArrHdr]
      split_ifs <;> simp [be2, be4]
    rw [show mpack (.arr xs) = mpArrHdr xs.length ++ mpackElems xs from rfl]
    simp only [msize, List.length_append]
    omega
  | .obj kvs => by
    have h := msizeM_le kvs
    have hh : 1 ≤ (mpMapHdr kvs.length).length := by
      simp only [mpMapHdr]
      split_ifs <;> simp [be2, be4]
    rw [show mpack (.obj kvs) = mpMapHdr kvs.length ++ mpackMembers kvs from rfl]
    simp only [msize, List.length_append]
    omega

/-- Element-run fuel requirement against the concatenated encodings. -/
theorem msizeL_le : ∀ xs : List JVal, msizeL xs ≤ 3 * (mpackElems xs).length
  | [] => by simp [msizeL, mpackElems]
  | x :: xs => by
    have h1 := msize_le x
    have h2 := msizeL_le xs
    rw [show mpackElems (x :: xs) = mpack x ++ mpackElems xs from rfl]
    simp only [msizeL, List.length_append]
    omega

/-- Member-run fuel requirement against the concatenated encodings. -/
theorem msizeM_le : ∀ kvs : List (List Char × JVal),
    msizeM kvs ≤ 3 * (mpackMembers kvs).length
  | [] => by simp [msizeM, mpackMembers]
  | (k, v) :: kvs => by
    have h1 := msize_le v
    have h2 := msizeM_le kvs
    have h3 := mpStr_length_pos k
    rw [show mpackMembers ((k, v) :: kvs) = mpStr k ++ mpack v ++ mpackMembers kvs from rfl]
    simp only [msizeM, List.length_append]
    omega

end

end ScrapyRedis
namespace ScrapyRedis

/-- One-step unfolding of the one mode at positive fuel on a nonempty input. -/
theorem munpack_one_cons (fuel b : Nat) (rest : List Nat) :
    munpack (fuel + 1) .one (b :: rest)
      = (if b < 128 then some (.v (.int b), rest)
         else if b < 144 then
           match munpack fuel (.members (b - 128)) rest with
           | some (.ms kvs, r) => some (.v (.obj kvs), r)
           | _ => none
         else if b < 160 then
           match munpack fuel (.elems (b - 144)) rest with
           | some (.vs xs, r) => some (.v (.arr xs), r)
           | _ => none
         else if b < 192 then (readStr (b - 160) rest).map fun p => (.v (.str p.1), p.2)
         else if b = 192 then some (.v .null, rest)
         else if b = 194 then some (.v (.bool false), rest)
         else if b = 195 then some (.v (.bool true), rest)
         else if b = 204 then
           match rest with
           | a :: r => some (.v (.int a), r)
           | _ => none
         else if b = 205 then
           match rest with
           | a :: a2 :: r => some (.v (.int (a * 256 + a2)), r)
           | _ => none
         else if b = 206 then
           match rest with
           | a :: a2 :: a3 :: a4 :: r =>
             some (.v (.int (a * 16777216 + a2 * 65536 + a3 * 256 + a4)), r)
           | _ => none
         else if b = 207 then
           match rest with
           | a :: a2 :: a3 :: a4 :: a5 :: a6 :: a7 :: a8 :: r =>
             some (.v (.int (a * 72057594037927936 + a2 * 281474976710656
               + a3 * 1099511627776 + a4 * 4294967296 + a5 * 16777216
               + a6 * 65536 + a7 * 256 + a8)), r)
           | _ => none
         else if b = 208 then
           match rest with
           | a :: r => some (.v (.int (if a < 128 then (a : Int) else (a : Int) - 256)), r)
           | _ => none
         else if b = 209 then
           match rest with
           | a :: a2 :: r =>
             let m := a * 256 + a2
             some (.v (.int (if m < 32768 then (m : Int) else (m : Int) - 65536)), r)
           | _ => none
         else if b = 210 then
           match rest with
           | a :: a2 :: a3 :: a4 :: r =>
             let m := a * 16777216 + a2 * 65536 + a3 * 256 + a4
             some (.v (.int (if m < 2147483648 then (m : Int) else (m : Int) - 4294967296)), r)
           | _ => none
         else if b = 211 then
           match rest with
           | a :: a2 :: a3 :: a4 :: a5 :: a6 :: a7 :: a8 :: r =>
             let m := a * 72057594037927936 + a2 * 281474976710656
               + a3 * 1099511627776 + a4 * 4294967296 + a5 * 16777216
               + a6 * 65536 + a7 * 256 + a8
             some (.v (.int (if m < 9223372036854775808 then (m : Int)
               else (m : Int) - 18446744073709551616)), r)
           | _ => none
         else if b = 217 then
           match rest with
           | len :: r => (readStr len r).map fun p => (.v (.str p.1), p.2)
           | _ => none
         else if b = 218 then
           match rest with
           | a :: a2 :: r => (readStr (a * 256 + a2) r).map fun p => (.v (.str p.1), p.2)
           | _ => none
         else if b = 219 then
           match rest with
           | a :: a2 :: a3 :: a4 :: r =>
             (readStr (a * 16777216 + a2 * 65536 + a3 * 256 + a4) r).map
               fun p => (.v (.str p.1), p.2)
           | _ => none
         else if b = 220 then
           match rest with
           | a :: a2 :: r =>
             match munpack fuel (.elems (a * 256 + a2)) r with
             | some (.vs xs, r2) => some (.v (.arr xs), r2)
             | _ => none
           | _ => none
         else if b = 221 then
           match rest with
           | a :: a2 :: a3 :: a4 :: r =>
             match munpack fuel (.elems (a * 16777216 + a2 * 65536 + a3 * 256 + a4)) r with
             | some (.vs xs, r2) => some (.v (.arr xs), r2)
             | _ => none
           | _ => none
         else if b = 222 then
           match rest with
           | a :: a2 :: r =>
             match munpack fuel (.members (a * 256 + a2)) r with
             | some (.ms kvs, r2) => some (.v (.obj kvs), r2)
             | _ => none
           | _ => none
         else if b = 223 then
           match rest with
           | a :: a2 :: a3 :: a4 :: r =>
             match munpack fuel (.members (a * 16777216 + a2 * 65536 + a3 * 256 + a4)) r with
             | some (.ms kvs, r2) => some (.v (.obj kvs), r2)
             | _ => none
           | _ => none
         else if 224 ≤ b && b ≤ 255 then some (.v (.int ((b : Int) - 256)), rest)
         else none) := rfl

end ScrapyRedis
namespace ScrapyRedis

theorem munpack_elems_zero (fuel : Nat) (l : List Nat) :
    munpack (fuel + 1) (.elems 0) l = some (.vs [], l) := rfl

theorem munpack_elems_succ (fuel n : Nat) (l : List Nat) :
    munpack (fuel + 1) (.elems (n + 1)) l
      = match munpack fuel .one l with
        | some (.v x, r) =>
          (match munpack fuel (.elems n) r with
           | some (.vs xs, r2) => some (.vs (x :: xs), r2)
           | _ => none)
        | _ => none := rfl

theorem munpack_members_zero (fuel : Nat) (l : List Nat) :
    munpack (fuel + 1) (.members 0) l = some (.ms [], l) := rfl

theorem munpack_members_succ (fuel n : Nat) (l : List Nat) :
    munpack (fuel + 1) (.members (n + 1)) l
      = match munpack fuel .one l with
        | some (.v (.str k), r) =>
          (match munpack fuel .one r with
           | some (.v x, r2) =>
             (match munpack fuel (.members n) r2 with
              | some (.ms kvs, r3) => some (.ms ((k, x) :: kvs), r3)
              | _ => none)
           | _ => none)
        | _ => none := rfl


end ScrapyRedis
namespace ScrapyRedis

/-- Decoding one uint8 payload. -/
theorem munpack_one_u8 (fuel a : Nat) (r : List Nat) :
    munpack (fuel + 1) .one (204 :: a :: r) = some (.v (.int a), r) := rfl

/-- Decoding one uint16 payload. -/
theorem munpack_one_u16 (fuel a a2 : Nat) (r : List Nat) :
    munpack (fuel + 1) .one (205 :: a :: a2 :: r)
      = some (.v (.int (a * 256 + a2)), r) := rfl

/-- Decoding one uint32 payload. -/
theorem munpack_one_u32 (fuel a a2 a3 a4 : Nat) (r : List Nat) :
    munpack (fuel + 1) .one (206 :: a :: a2 :: a3 :: a4 :: r)
      = some (.v (.int (a * 16777216 + a2 * 65536 + a3 * 256 + a4)), r) := rfl

/-- Decoding one uint64 payload. -/
theorem munpack_one_u64 (fuel a a2 a3 a4 a5 a6 a7 a8 : Nat) (r : List Nat) :
    munpack (fuel + 1) .one (207 :: a :: a2 :: a3 :: a4 :: a5 :: a6 :: a7 :: a8 :: r)
      = some (.v (.int (a * 72057594037927936 + a2 * 281474976710656
          + a3 * 1099511627776 + a4 * 4294967296 + a5 * 16777216
          + a6 * 65536 + a7 * 256 + a8)), r) := rfl

/-- Decoding one int8 payload. -/
theorem munpack_one_i8 (fuel a : Nat) (r : List Nat) :
    munpack (fuel + 1) .one (208 :: a :: r)
      = some (.v (.int (if a < 128 then (a : Int) else (a : Int) - 256)), r) := rfl

/-- Decoding one int16 payload. -/
theorem munpack_one_i16 (fuel a a2 : Nat) (r : List Nat) :
    munpack (fuel + 1) .one (209 :: a :: a2 :: r)
      = some (.v (.int (if a * 256 + a2 < 32768 then ((a * 256 + a2 : Nat) : Int)
          else ((a * 256 + a2 : Nat) : Int) - 65536)), r) := rfl

/-- Decoding one int32 payload. -/
theorem munpack_one_i32 (fuel a a2 a3 a4 : Nat) (r : List Nat) :
    munpack (fuel + 1) .one (210 :: a :: a2 :: a3 :: a4 :: r)
      = some (.v (.int
          (if a * 16777216 + a2 * 65536 + a3 * 256 + a4 < 2147483648
           then ((a * 16777216 + a2 * 65536 + a3 * 256 + a4 : Nat) : Int)
           else ((a * 16777216 + a2 * 65536 + a3 * 256 + a4 : Nat) : Int)
             - 4294967296)), r) := rfl

/-- Decoding one int64 payload. -/
theorem munpack_one_i64 (fuel a a2 a3 a4 a5 a6 a7 a8 : Nat) (r : List Nat) :
    munpack (fuel + 1) .one (211 :: a :: a2 :: a3 :: a4 :: a5 :: a6 :: a7 :: a8 :: r)
      = some (.v (.int
          (if a * 72057594037927936 + a2 * 281474976710656 + a3 * 1099511627776
              + a4 * 4294967296 + a5 * 16777216 + a6 * 65536 + a7 * 256 + a8
              < 9223372036854775808
           then ((a * 72057594037927936 + a2 * 281474976710656 + a3 * 1099511627776
              + a4 * 4294967296 + a5 * 16777216 + a6 * 65536 + a7 * 256 + a8 : Nat) : Int)
           else ((a * 72057594037927936 + a2 * 281474976710656 + a3 * 1099511627776
              + a4 * 4294967296 + a5 * 16777216 + a6 * 65536 + a7 * 256 + a8 : Nat) : Int)
             - 18446744073709551616)), r) := rfl

/-- Decoding one str8 payload. -/
theorem munpack_one_s8 (fuel len : Nat) (r : List Nat) :
    munpack (fuel + 1) .one (217 :: len :: r)
      = (readStr len r).map fun p => (.v (.str p.1), p.2) := rfl

/-- Decoding one str16 payload. -/
theorem munpack_one_s16 (fuel a a2 : Nat) (r : List Nat) :
    munpack (fuel + 1) .one (218 :: a :: a2 :: r)
      = (readStr (a * 256 + a2) r).map fun p => (.v (.str p.1), p.2) := rfl

/-- Decoding one str32 payload. -/
theorem munpack_one_s32 (fuel a a2 a3 a4 : Nat) (r : List Nat) :
    munpack (fuel + 1) .one (219 :: a :: a2 :: a3 :: a4 :: r)
      = (readStr (a * 16777216 + a2 * 65536 + a3 * 256 + a4) r).map
          fun p => (.v (.str p.1), p.2) := rfl

/-- Decoding one array16 header. -/
theorem munpack_one_a16 (fuel a a2 : Nat) (r : List Nat) :
    munpack (fuel + 1) .one (220 :: a :: a2 :: r)
      = match munpack fuel (.elems (a * 256 + a2)) r with
        | some (.vs xs, r2) => some (.v (.arr xs), r2)
        | _ => none := rfl

/-- Decoding one array32 header. -/
theorem munpack_one_a32 (fuel a a2 a3 a4 : Nat) (r : List Nat) :
    munpack (fuel + 1) .one (221 :: a :: a2 :: a3 :: a4 :: r)
      = match munpack fuel (.elems (a * 16777216 + a2 * 65536 + a3 * 256 + a4)) r with
        | some (.vs xs, r2) => some (.v (.arr xs), r2)
        | _ => none := rfl

/-- Decoding one map16 header. -/
theorem munpack_one_m16 (fuel a a2 : Nat) (r : List Nat) :
    munpack (fuel + 1) .one (222 :: a :: a2 :: r)
      = match munpack fuel (.members (a * 256 + a2)) r with
        | some (.ms kvs, r2) => some (.v (.obj kvs), r2)
        | _ => none := rfl

/-- Decoding one map32 header. -/
theorem munpack_one_m32 (fuel a a2 a3 a4 : Nat) (r : List Nat) :
    munpack (fuel + 1) .one (223 :: a :: a2 :: a3 :: a4 :: r)
      = match munpack fuel (.members (a * 16777216 + a2 * 65536 + a3 * 256 + a4)) r with
        | some (.ms kvs, r2) => some (.v (.obj kvs), r2)
        | _ => none := rfl

/-- Decoding one positive fixint. -/
theorem munpack_one_pfix (fuel b : Nat) (r : List Nat) (h : b < 128) :
    munpack (fuel + 1) .one (b :: r) = some (.v (.int b), r) := by
  rw [munpack_one_cons, if_pos h]

/-- Decoding one negative fixint. -/
theorem munpack_one_nfix (fuel b : Nat) (r : List Nat) (h1 : 224 ≤ b) (h2 : b ≤ 255) :
    munpack (fuel + 1) .one (b :: r) = some (.v (.int ((b : Int) - 256)), r) := by
  have hlt : ∀ m : Nat, m ≤ 224 → ¬ b < m := fun m hm hq => by omega
  have hne : ∀ m : Nat, m < 224 → b ≠ m := fun m hm he => by omega
  rw [munpack_one_cons, if_neg (hlt 128 (by omega)), if_neg (hlt 144 (by omega)),
    if_neg (hlt 160 (by omega)), if_neg (hlt 192 (by omega)), if_neg (hne 192 (by omega)),
    if_neg (hne 194 (by omega)), if_neg (hne 195 (by omega)), if_neg (hne 204 (by omega)),
    if_neg (hne 205 (by omega)), if_neg (hne 206 (by omega)), if_neg (hne 207 (by omega)),
    if_neg (hne 208 (by omega)), if_neg (hne 209 (by omega)), if_neg (hne 210 (by omega)),
    if_neg (hne 211 (by omega)), if_neg (hne 217 (by omega)), if_neg (hne 218 (by omega)),
    if_neg (hne 219 (by omega)), if_neg (hne 220 (by omega)), if_neg (hne 221 (by omega)),
    if_neg (hne 222 (by omega)), if_neg (hne 223 (by omega)),
    if_pos (by simp only [Bool.and_eq_true, decide_eq_true_eq]; omega)]

/-- Decoding one fixstr header. -/
theorem munpack_one_sfix (fuel b : Nat) (r : List Nat) (h1 : 160 ≤ b) (h2 : b < 192) :
    munpack (fuel + 1) .one (b :: r)
      = (readStr (b - 160) r).map fun p => (.v (.str p.1), p.2) := by
  rw [munpack_one_cons, if_neg (by omega), if_neg (by omega), if_neg (by omega),
    if_pos h2]

/-- Decoding one fixarray header. -/
theorem munpack_one_afix (fuel b : Nat) (r : List Nat) (h1 : 144 ≤ b) (h2 : b < 160) :
    munpack (fuel + 1) .one (b :: r)
      = match munpack fuel (.elems (b - 144)) r with
        | some (.vs xs, r2) => some (.v (.arr xs), r2)
        | _ => none := by
  rw [munpack_one_cons, if_neg (by omega), if_neg (by omega), if_pos h2]

/-- Decoding one fixmap header. -/
theorem munpack_one_mfix (fuel b : Nat) (r : List Nat) (h1 : 128 ≤ b) (h2 : b < 144) :
    munpack (fuel + 1) .one (b :: r)
      = match munpack fuel (.members (b - 128)) r with
        | some (.ms kvs, r2) => some (.v (.obj kvs), r2)
        | _ => none := by
  rw [munpack_one_cons, if_neg (by omega), if_pos h2]

end ScrapyRedis
namespace ScrapyRedis

/-- Integer encodings decode back to the same integer throughout the
modelled int64/uint64 range. -/
theorem mpInt_round (n : Int) (fuel : Nat) (r : List Nat)
    (hlo : -(2 ^ 63 : Int) ≤ n) (hhi : n < 2 ^ 64) :
    munpack (fuel + 1) .one (mpInt n ++ r) = some (.v (.int n), r) := by
  by_cases h : 0 ≤ n
  · simp only [mpInt]
    rw [if_pos h]
    by_cases hb1 : n.toNat < 128
    · rw [if_pos hb1, show ([n.toNat] : List Nat) ++ r = n.toNat :: r from rfl,
        munpack_one_pfix fuel n.toNat r hb1]
      exact congrArg some (congrArg (fun z => (MRes.v (JVal.int z), r)) (by omega))
    · rw [if_neg hb1]
      by_cases hb2 : n.toNat < 256
      · rw [if_pos hb2, show ([204, n.toNat] : List Nat) ++ r = 204 :: n.toNat :: r from rfl,
          munpack_one_u8]
        exact congrArg some (congrArg (fun z => (MRes.v (JVal.int z), r)) (by omega))
      · rw [if_neg hb2]
        by_cases hb3 : n.toNat < 65536
        · rw [if_pos hb3, show (205 :: be2 n.toNat) ++ r
              = 205 :: n.toNat / 256 :: n.toNat % 256 :: r from rfl,
            munpack_one_u16]
          exact congrArg some (congrArg (fun z => (MRes.v (JVal.int z), r)) (by omega))
        · rw [if_neg hb3]
          by_cases hb4 : n.toNat < 4294967296
          · rw [if_pos hb4, show (206 :: be4 n.toNat) ++ r
                = 206 :: n.toNat / 16777216 :: n.toNat / 65536 % 256
                  :: n.toNat / 256 % 256 :: n.toNat % 256 :: r from rfl,
              munpack_one_u32]
            exact congrArg some (congrArg (fun z => (MRes.v (JVal.int z), r)) (by omega))
          · rw [if_neg hb4, show (207 :: be8 n.toNat) ++ r
                = 207 :: n.toNat / 72057594037927936 :: n.toNat / 281474976710656 % 256
                  :: n.toNat / 1099511627776 % 256 :: n.toNat / 4294967296 % 256
                  :: n.toNat / 16777216 % 256 :: n.toNat / 65536 % 256
                  :: n.toNat / 256 % 256 :: n.toNat % 256 :: r from rfl,
              munpack_one_u64]
            exact congrArg some (congrArg (fun z => (MRes.v (JVal.int z), r)) (by omega))
  · simp only [mpInt]
    rw [if_neg h]
    by_cases hc1 : -32 ≤ n
    · rw [if_pos hc1, show ([(256 + n).toNat] : List Nat) ++ r = (256 + n).toNat :: r from rfl,
        munpack_one_nfix fuel (256 + n).toNat r (by omega) (by omega)]
      exact congrArg some (congrArg (fun z => (MRes.v (JVal.int z), r)) (by omega))
    · rw [if_neg hc1]
      by_cases hc2 : -128 ≤ n
      · rw [if_pos hc2, show ([208, (256 + n).toNat] : List Nat) ++ r
            = 208 :: (256 + n).toNat :: r from rfl,
          munpack_one_i8, if_neg (by omega)]
        exact congrArg some (congrArg (fun z => (MRes.v (JVal.int z), r)) (by omega))
      · rw [if_neg hc2]
        by_cases hc3 : -32768 ≤ n
        · rw [if_pos hc3, show (209 :: be2 (65536 + n).toNat) ++ r
              = 209 :: (65536 + n).toNat / 256 :: (65536 + n).toNat % 256 :: r from rfl,
            munpack_one_i16, if_neg (by omega)]
          exact congrArg some (congrArg (fun z => (MRes.v (JVal.int z), r)) (by omega))
        · rw [if_neg hc3]
          by_cases hc4 : -2147483648 ≤ n
          · rw [if_pos hc4, show (210 :: be4 (4294967296 + n).toNat) ++ r
                = 210 :: (4294967296 + n).toNat / 16777216
                  :: (4294967296 + n).toNat / 65536 % 256
                  :: (4294967296 + n).toNat / 256 % 256
                  :: (4294967296 + n).toNat % 256 :: r from rfl,
              munpack_one_i32, if_neg (by omega)]
            exact congrArg some (congrArg (fun z => (MRes.v (JVal.int z), r)) (by omega))
          · rw [if_neg hc4, show (211 :: be8 (18446744073709551616 + n).toNat) ++ r
                = 211 :: (18446744073709551616 + n).toNat / 72057594037927936
                  :: (18446744073709551616 + n).toNat / 281474976710656 % 256
                  :: (18446744073709551616 + n).toNat / 1099511627776 % 256
                  :: (18446744073709551616 + n).toNat / 4294967296 % 256
                  :: (18446744073709551616 + n).toNat / 16777216 % 256
                  :: (18446744073709551616 + n).toNat / 65536 % 256
                  :: (18446744073709551616 + n).toNat / 256 % 256
                  :: (18446744073709551616 + n).toNat % 256 :: r from rfl,
              munpack_one_i64, if_neg (by omega)]
            exact congrArg some (congrArg (fun z => (MRes.v (JVal.int z), r)) (by omega))

/-- String encodings decode back to the same string for the modelled
length range. -/
theorem mpStr_round (s : List Char) (fuel : Nat) (r : List Nat) :
    munpack (fuel + 1) .one (mpStr s ++ r) = some (.v (.str s), r) := by
  simp only [mpStr]
  rw [List.append_assoc]
  by_cases hb1 : (utf8Str s).length < 32
  · simp only [mpStrHdr]
    rw [if_pos hb1, List.singleton_append,
      munpack_one_sfix fuel (160 + (utf8Str s).length) _ (by omega) (by omega),
      show 160 + (utf8Str s).length - 160 = (utf8Str s).length from by omega,
      readStr_exact]
    rfl
  · simp only [mpStrHdr]
    rw [if_neg hb1]
    by_cases hb2 : (utf8Str s).length < 256
    · rw [if_pos hb2, show ([217, (utf8Str s).length] : List Nat) ++ (utf8Str s ++ r)
          = 217 :: (utf8Str s).length :: (utf8Str s ++ r) from rfl,
        munpack_one_s8, readStr_exact]
      rfl
    · rw [if_neg hb2]
      by_cases hb3 : (utf8Str s).length < 65536
      · rw [if_pos hb3, show (218 :: be2 (utf8Str s).length) ++ (utf8Str s ++ r)
            = 218 :: (utf8Str s).length / 256 :: (utf8Str s).length % 256
              :: (utf8Str s ++ r) from rfl,
          munpack_one_s16,
          show (utf8Str s).length / 256 * 256 + (utf8Str s).length % 256
            = (utf8Str s).length from by omega,
          readStr_exact]
        rfl
      · rw [if_neg hb3, show (219 :: be4 (utf8Str s).length) ++ (utf8Str s ++ r)
            = 219 :: (utf8Str s).length / 16777216 :: (utf8Str s).length / 65536 % 256
              :: (utf8Str s).length / 256 % 256 :: (utf8Str s).length % 256
              :: (utf8Str s ++ r) from rfl,
          munpack_one_s32,
          show (utf8Str s).length / 16777216 * 16777216
              + (utf8Str s).length / 65536 % 256 * 65536
              + (utf8Str s).length / 256 % 256 * 256 + (utf8Str s).length % 256
            = (utf8Str s).length from by omega,
          readStr_exact]
        rfl

end ScrapyRedis
namespace ScrapyRedis

/-- The msgpack decoder inverts mpack: in one mode on an encoded value, in
elems mode on a counted run of encoded elements, in members mode on a
counted run of encoded key/value pairs. -/
theorem munpack_round : ∀ fuel : Nat,
    (∀ (v : JVal) (r : List Nat), wfJ v = true → msize v ≤ fuel →
      munpack fuel .one (mpack v ++ r) = some (.v v, r)) ∧
    (∀ (xs : List JVal) (r : List Nat), wfArr xs = true → msizeL xs < fuel →
      munpack fuel (.elems xs.length) (mpackElems xs ++ r) = some (.vs xs, r)) ∧
    (∀ (kvs : List (List Char × JVal)) (r : List Nat), wfObjL kvs = true →
      msizeM kvs < fuel →
      munpack fuel (.members kvs.length) (mpackMembers kvs ++ r) = some (.ms kvs, r)) := by
  intro fuel
  induction fuel with
  | zero =>
    refine ⟨?_, ?_, ?_⟩
    · intro v r _ hsz
      exact absurd hsz (by have := msize_pos v; omega)
    · intro xs r _ hsz
      exact absurd hsz (by omega)
    · intro kvs r _ hsz
      exact absurd hsz (by omega)
  | succ fuel ih =>
    obtain ⟨ihA, ihB, ihC⟩ := ih
    refine ⟨?_, ?_, ?_⟩
    · intro v r hwf hsz
      cases v with
      | null => rfl
      | bool b => cases b <;> rfl
      | int n =>
        have hb : -(2 ^ 63 : Int) ≤ n ∧ n < 2 ^ 64 := by
          simp [wfJ] at hwf
          omega
        rw [show mpack (.int n) = mpInt n from rfl]
        exact mpInt_round n fuel r hb.1 hb.2
      | str s =>
        rw [show mpack (.str s) = mpStr s from rfl]
        exact mpStr_round s fuel r
      | arr xs =>
        have hwfA : wfArr xs = true := by
          simp only [wfJ, Bool.and_eq_true] at hwf
          exact hwf.2
        have hszL : msizeL xs < fuel := by
          simp only [msize] at hsz
          omega
        rw [show mpack (.arr xs) = mpArrHdr xs.length ++ mpackElems xs from rfl,
          List.append_assoc]
        by_cases hl1 : xs.length < 16
        · simp only [mpArrHdr]
          rw [if_pos hl1, List.singleton_append,
            munpack_one_afix fuel (144 + xs.length) _ (by omega) (by omega),
            show 144 + xs.length - 144 = xs.length from by omega,
            ihB xs r hwfA hszL]
        · simp only [mpArrHdr]
          rw [if_neg hl1]
          by_cases hl2 : xs.length < 65536
          · rw [if_pos hl2, show (220 :: be2 xs.length) ++ (mpackElems xs ++ r)
                = 220 :: xs.length / 256 :: xs.length % 256
                  :: (mpackElems xs ++ r) from rfl,
              munpack_one_a16,
              show xs.length / 256 * 256 + xs.length % 256 = xs.length from by omega,
              ihB xs r hwfA hszL]
          · rw [if_neg hl2, show (221 :: be4 xs.length) ++ (mpackElems xs ++ r)
                = 221 :: xs.length / 16777216 :: xs.length / 65536 % 256
                  :: xs.length / 256 % 256 :: xs.length % 256
                  :: (mpackElems xs ++ r) from rfl,
              munpack_one_a32,
              show xs.length / 16777216 * 16777216 + xs.length / 65536 % 256 * 65536
                  + xs.length / 256 % 256 * 256 + xs.length % 256
                = xs.length from by omega,
              ihB xs r hwfA hszL]
      | obj kvs =>
        have hwfM : wfObjL kvs = true := by
          simp only [wfJ, Bool.and_eq_true] at hwf
          exact hwf.2
        have hszM : msizeM kvs < fuel := by
          simp only [msize] at hsz
          omega
        rw [show mpack (.obj kvs) = mpMapHdr kvs.length ++ mpackMembers kvs from rfl,
          List.append_assoc]
        by_cases hl1 : kvs.length < 16
        · simp only [mpMapHdr]
          rw [if_pos hl1, List.singleton_append,
            munpack_one_mfix fuel (128 + kvs.length) _ (by omega) (by omega),
            show 128 + kvs.length - 128 = kvs.length from by omega,
            ihC kvs r hwfM hszM]
        · simp only [mpMapHdr]
          rw [if_neg hl1]
          by_cases hl2 : kvs.length < 65536
          · rw [if_pos hl2, show (222 :: be2 kvs.length) ++ (mpackMembers kvs ++ r)
                = 222 :: kvs.length / 256 :: kvs.length % 256
                  :: (mpackMembers kvs ++ r) from rfl,
              munpack_one_m16,
              show kvs.length / 256 * 256 + kvs.length % 256 = kvs.length from by omega,
              ihC kvs r hwfM hszM]
          · rw [if_neg hl2, show (223 :: be4 kvs.length) ++ (mpackMembers kvs ++ r)
                = 223 :: kvs.length / 16777216 :: kvs.length / 65536 % 256
                  :: kvs.length / 256 % 256 :: kvs.length % 256
                  :: (mpackMembers kvs ++ r) from rfl,
              munpack_one_m32,
              show kvs.length / 16777216 * 16777216 + kvs.length / 65536 % 256 * 65536
                  + kvs.length / 256 % 256 * 256 + kvs.length % 256
                = kvs.length from by omega,
              ihC kvs r hwfM hszM]
    · intro xs r hwf hlt
      cases xs with
      | nil => rfl
      | cons x t =>
        have hwfx : wfJ x = true := by
          simp only [wfArr, Bool.and_eq_true] at hwf
          exact hwf.1
        have hwft : wfArr t = true := by
          simp only [wfArr, Bool.and_eq_true] at hwf
          exact hwf.2
        have hp := msize_pos x
        have hszx : msize x ≤ fuel := by
          simp only [msizeL] at hlt
          omega
        have hszt : msizeL t < fuel := by
          simp only [msizeL] at hlt
          omega
        rw [List.length_cons,
          show mpackElems (x :: t) ++ r = mpack x ++ (mpackElems t ++ r) from by
            rw [show mpackElems (x :: t) = mpack x ++ mpackElems t from rfl,
              List.append_assoc],
          munpack_elems_succ, ihA x (mpackElems t ++ r) hwfx hszx]
        simp only [ihB t r hwft hszt]
    · intro kvs r hwf hlt
      cases kvs with
      | nil => rfl
      | cons kv t =>
        obtain ⟨k, v⟩ := kv
        have hwfv : wfJ v = true := by
          simp only [wfObjL, Bool.and_eq_true] at hwf
          exact hwf.1.2
        have hwft : wfObjL t = true := by
          simp only [wfObjL, Bool.and_eq_true] at hwf
          exact hwf.2
        have hp := msize_pos v
        have hszv : msize v ≤ fuel := by
          simp only [msizeM] at hlt
          omega
        have hszt : msizeM t < fuel := by
          simp only [msizeM] at hlt
          omega
        obtain ⟨f, rfl⟩ : ∃ f, fuel = f + 1 := by
          refine ⟨fuel - 1, ?_⟩
          simp only [msizeM] at hlt
          omega
        rw [List.length_cons,
          show mpackMembers ((k, v) :: t) ++ r
              = mpStr k ++ (mpack v ++ (mpackMembers t ++ r)) from by
            rw [show mpackMembers ((k, v) :: t)
              = mpStr k ++ mpack v ++ mpackMembers t from rfl]
            simp,
          munpack_members_succ, mpStr_round k f (mpack v ++ (mpackMembers t ++ r))]
        simp only [ihA v (mpackMembers t ++ r) hwfv hszv]
        simp only [ihC t r hwft hszt]

end ScrapyRedis
namespace ScrapyRedis

/-- The msgpack serializer round trip on well-formed payloads. -/
theorem MsgpackSerializer_round (v : JVal) (hwf : wfJ v = true) :
    MsgpackSerializer.loads (MsgpackSerializer.dumps v) = some v := by
  have hle := msize_le v
  have h := (munpack_round (4 * (mpack v).length + 4)).1 v [] hwf (by omega)
  rw [List.append_nil] at h
  rw [show MsgpackSerializer.dumps v = mpack v from rfl, MsgpackSerializer.loads, h]
  rfl

/-- C6: for each supported codec — JsonSerializer (json.dumps then utf-8,
inverted by decode and json.loads) and MsgpackSerializer (msgpack.packb,
inverted by unpackb) — loads recovers every well-formed payload value from
its dumps encoding. -/
theorem C6_serializer_round (v : JVal) (hwf : wfJ v = true) :
    JsonSerializer.loads (JsonSerializer.dumps v) = some v ∧
    MsgpackSerializer.loads (MsgpackSerializer.dumps v) = some v :=
  ⟨JsonSerializer_round v hwf, MsgpackSerializer_round v hwf⟩

/-- C6 witness: a concrete two-key payload with a string, a mixed array,
negative and multi-byte integers, a boolean and a null round-trips through
both serializers. -/
theorem C6_serializer_round_witness :
    wfJ (JVal.obj [(['u'], .str ['a', 'b']),
      (['p'], .arr [.int (-5), .int 300, .bool true, .null])]) = true ∧
    (JsonSerializer.loads (JsonSerializer.dumps
        (JVal.obj [(['u'], .str ['a', 'b']),
          (['p'], .arr [.int (-5), .int 300, .bool true, .null])]))
      = some (JVal.obj [(['u'], .str ['a', 'b']),
          (['p'], .arr [.int (-5), .int 300, .bool true, .null])]) ∧
     MsgpackSerializer.loads (MsgpackSerializer.dumps
        (JVal.obj [(['u'], .str ['a', 'b']),
          (['p'], .arr [.int (-5), .int 300, .bool true, .null])]))
      = some (JVal.obj [(['u'], .str ['a', 'b']),
          (['p'], .arr [.int (-5), .int 300, .bool true, .null])])) :=
  ⟨by decide, C6_serializer_round _ (by decide)⟩

end ScrapyRedis
